import Mathlib

/-
Verification of the metro cell-state codec of this OpenTTD fork
(src/metro_map.h and src/metro_map.cpp) against its specification.

The whole metro track/signal/reservation sub-state lives in the tile's
16-bit m8 word, so the functions of metro_map.h are embedded at word level:
a state is the Nat value of m8 (kept below 2 to the 16 by the setters).
Machine-integer bit operations are translated arithmetically:
x >> s is x / 2 ^ s, masking the low n bits is % 2 ^ n, and writing a
bit-disjoint field is addition.  The functions of metro_map.cpp touch
several words of a tile, so for them a Tile structure carries the words.
-/

namespace Metro

/-- GB(x, s, n) of the bitmath primitives: extract n bits of x at offset s. -/
def GB (x s n : Nat) : Nat := x / 2 ^ s % 2 ^ n

/-- HasBit(x, i): test bit i of x. -/
def HasBit (x i : Nat) : Bool := x / 2 ^ i % 2 == 1

/-- SB(x, s, n, d): replace the n bits of x at offset s by d.  The C++
template clears the field with a mask and ors in d shifted; every call
site in the verified code passes d below 2 ^ n, for which the or is the
plain addition written here (the explicit % 2 ^ n records that d must
fit the field). -/
def SB (x s n d : Nat) : Nat :=
  x % 2 ^ s + d % 2 ^ n * 2 ^ s + x / 2 ^ (s + n) * 2 ^ (s + n)

/-- AssignBit(x, i, b): SetBit when b, ClrBit otherwise; a 1-bit SB. -/
def AssignBit (x i : Nat) (b : Bool) : Nat :=
  SB x i 1 b.toNat

/-- Track enum value TRACK_X. -/
def TRACK_X : Nat := 0
/-- Track enum value TRACK_Y. -/
def TRACK_Y : Nat := 1
/-- Track enum value TRACK_UPPER. -/
def TRACK_UPPER : Nat := 2
/-- Track enum value TRACK_LOWER. -/
def TRACK_LOWER : Nat := 3
/-- Track enum value TRACK_LEFT. -/
def TRACK_LEFT : Nat := 4
/-- Track enum value TRACK_RIGHT. -/
def TRACK_RIGHT : Nat := 5
/-- Track enum value INVALID_TRACK (0xFF). -/
def INVALID_TRACK : Nat := 255

/-- TrackBits value TRACK_BIT_NONE. -/
def TRACK_BIT_NONE : Nat := 0
/-- TrackBits value TRACK_BIT_X. -/
def TRACK_BIT_X : Nat := 1
/-- TrackBits value TRACK_BIT_Y. -/
def TRACK_BIT_Y : Nat := 2
/-- TrackBits value TRACK_BIT_UPPER. -/
def TRACK_BIT_UPPER : Nat := 4
/-- TrackBits value TRACK_BIT_LOWER. -/
def TRACK_BIT_LOWER : Nat := 8
/-- TrackBits value TRACK_BIT_LEFT. -/
def TRACK_BIT_LEFT : Nat := 16
/-- TrackBits value TRACK_BIT_RIGHT. -/
def TRACK_BIT_RIGHT : Nat := 32
/-- TrackBits value TRACK_BIT_HORZ = TRACK_BIT_UPPER | TRACK_BIT_LOWER. -/
def TRACK_BIT_HORZ : Nat := 12
/-- TrackBits value TRACK_BIT_VERT = TRACK_BIT_LEFT | TRACK_BIT_RIGHT. -/
def TRACK_BIT_VERT : Nat := 48
/-- TrackBits value INVALID_TRACK_BIT (0xFF). -/
def INVALID_TRACK_BIT : Nat := 255

/-- Modelled from the spec: the four TrackBits alias constants
TRACK_BIT_N, TRACK_BIT_U, TRACK_BIT_C and TRACK_BIT_RC that
SetMetroTrackReservation normalizes to TRACK_BIT_UPPER, TRACK_BIT_LOWER,
TRACK_BIT_LEFT and TRACK_BIT_RIGHT are declared in this repository's
track_type.h, which is not among the provided sources.  The spec treats
reservation arguments as plain non-overlapping subsets of the six tracks
and requires every such subset to be stored unchanged, and the
normalization happens before the function's own no-overlap assertion, so
the aliases are modelled as overlapping two-track combinations, distinct
from every non-overlapping subset: each pairs a diagonal with the plain
track it is normalized to. -/
def TRACK_BIT_N : Nat := TRACK_BIT_X + TRACK_BIT_UPPER

/-- Modelled from the spec: see TRACK_BIT_N. -/
def TRACK_BIT_U : Nat := TRACK_BIT_X + TRACK_BIT_LOWER

/-- Modelled from the spec: see TRACK_BIT_N. -/
def TRACK_BIT_C : Nat := TRACK_BIT_Y + TRACK_BIT_LEFT

/-- Modelled from the spec: see TRACK_BIT_N. -/
def TRACK_BIT_RC : Nat := TRACK_BIT_Y + TRACK_BIT_RIGHT

/-- TRACK_RESERVATION_BOTH of metro_map.h: the 3-bit sentinel meaning
both tracks of the current double-track bundle are reserved. -/
def TRACK_RESERVATION_BOTH : Nat := 7

/-- TrackToTrackBits(track) = 1 << track. -/
def TrackToTrackBits (track : Nat) : Nat := 2 ^ track

/-- FIND_FIRST_BIT for a byte-sized value: index of the lowest set bit
(8 when none is set, matching countr_zero on uint8_t). -/
def FindFirstBit (x : Nat) : Nat :=
  if HasBit x 0 then 0
  else if HasBit x 1 then 1
  else if HasBit x 2 then 2
  else if HasBit x 3 then 3
  else if HasBit x 4 then 4
  else if HasBit x 5 then 5
  else if HasBit x 6 then 6
  else if HasBit x 7 then 7
  else 8

/-- KillFirstBit(x) = x & (x - 1): clear the lowest set bit. -/
def KillFirstBit (x : Nat) : Nat :=
  if x = 0 then 0 else x - 2 ^ FindFirstBit x

/-- FindFirstTrack(tracks): the first of the TrackBits, INVALID_TRACK
when there is none. -/
def FindFirstTrack (tracks : Nat) : Nat :=
  if tracks = TRACK_BIT_NONE then INVALID_TRACK else FindFirstBit tracks

/-- TracksOverlap(bits): do the given tracks overlap geometrically?
False for no or one track; two or more tracks overlap unless they are
exactly the horizontal or the vertical pair. -/
def TracksOverlap (bits : Nat) : Bool :=
  if bits = TRACK_BIT_NONE || KillFirstBit bits = 0 then false
  else decide (bits ≠ TRACK_BIT_HORZ ∧ bits ≠ TRACK_BIT_VERT)

/-- RemoveFirstTrack(*tracks): returns the first track (INVALID_TRACK
when tracks is empty or INVALID_TRACK_BIT) together with the remaining
tracks after clearing it. -/
def RemoveFirstTrack (tracks : Nat) : Nat × Nat :=
  if tracks ≠ TRACK_BIT_NONE ∧ tracks ≠ INVALID_TRACK_BIT then
    (FindFirstTrack tracks, KillFirstBit tracks)
  else (INVALID_TRACK, tracks)

/-- InnerMetroHasSignals(t): bit 15 of m8. -/
def InnerMetroHasSignals (w : Nat) : Bool := HasBit w 15

/-- InnerSetMetroHasSignals(t, signals): assign bit 15 of m8. -/
def InnerSetMetroHasSignals (w : Nat) (signals : Bool) : Nat :=
  AssignBit w 15 signals

/-- InnerMetroHasDoubleTrack(t): bit 14 of m8. -/
def InnerMetroHasDoubleTrack (w : Nat) : Bool := HasBit w 14

/-- InnerSetMetroHasDoubleTrack(t, dt): assign bit 14 of m8. -/
def InnerSetMetroHasDoubleTrack (w : Nat) (dt : Bool) : Nat :=
  AssignBit w 14 dt

/-- GetMetroTrack(t): the 3-bit track field at bits 3..5 of m8. -/
def GetMetroTrack (w : Nat) : Nat := GB w 3 3

/-- SetMetroTrack(t, tr): write the 3-bit track field at bits 3..5. -/
def SetMetroTrack (w tr : Nat) : Nat := SB w 3 3 tr

/-- GetMetroDoubleTrackDirection(t): bit 3 of m8; false is
DOUBLE_TRACK_DIR_HORZ, true is DOUBLE_TRACK_DIR_VERT. -/
def GetMetroDoubleTrackDirection (w : Nat) : Bool := HasBit w 3

/-- SetMetroDoubleTrackDirection(t, d): assign bit 3 of m8. -/
def SetMetroDoubleTrackDirection (w : Nat) (d : Bool) : Nat :=
  AssignBit w 3 d

/-- GetMetroTrackBits(t): the topology decode.  Signaled double-track
tiles give the bundle selected by the direction bit, signaled
single-track tiles give the track field as a singleton, unsignaled tiles
give the raw 6-bit bitset at bits 0..5. -/
def GetMetroTrackBits (w : Nat) : Nat :=
  if InnerMetroHasSignals w then
    if InnerMetroHasDoubleTrack w then
      if GetMetroDoubleTrackDirection w then TRACK_BIT_VERT else TRACK_BIT_HORZ
    else TrackToTrackBits (GetMetroTrack w)
  else GB w 0 6

/-- HasMetroTrack(tile, track): is the track present in the topology? -/
def HasMetroTrack (w track : Nat) : Bool :=
  HasBit (GetMetroTrackBits w) track

/-- SetMetroTrackBits(t, b).  In signaled mode the eight recognized
values select the single-track or double-track encoding; any other value
first clears the signal-presence bit (the switch's default case) and
then, like the unsignaled mode, is written to the raw 6-bit field. -/
def SetMetroTrackBits (w b : Nat) : Nat :=
  if InnerMetroHasSignals w then
    if b = TRACK_BIT_X then
      SetMetroTrack (InnerSetMetroHasDoubleTrack w false) TRACK_X
    else if b = TRACK_BIT_Y then
      SetMetroTrack (InnerSetMetroHasDoubleTrack w false) TRACK_Y
    else if b = TRACK_BIT_UPPER then
      SetMetroTrack (InnerSetMetroHasDoubleTrack w false) TRACK_UPPER
    else if b = TRACK_BIT_LOWER then
      SetMetroTrack (InnerSetMetroHasDoubleTrack w false) TRACK_LOWER
    else if b = TRACK_BIT_LEFT then
      SetMetroTrack (InnerSetMetroHasDoubleTrack w false) TRACK_LEFT
    else if b = TRACK_BIT_RIGHT then
      SetMetroTrack (InnerSetMetroHasDoubleTrack w false) TRACK_RIGHT
    else if b = TRACK_BIT_HORZ then
      SetMetroDoubleTrackDirection (InnerSetMetroHasDoubleTrack w true) false
    else if b = TRACK_BIT_VERT then
      SetMetroDoubleTrackDirection (InnerSetMetroHasDoubleTrack w true) true
    else SB (InnerSetMetroHasSignals w false) 0 6 b
  else SB w 0 6 b

/-- The sentinel disambiguation of GetMetroRailReservationTrackBits:
from the raw topology bits, the direction of the reserved double-track
bundle; the source compares (track_bits & TRACK_BIT_VERT) with
TRACK_BIT_VERT and (track_bits & TRACK_BIT_HORZ) with TRACK_BIT_HORZ,
written here as the corresponding pairs of bit tests. -/
def metroSentinelDecode (track_bits : Nat) : Nat :=
  if ¬(HasBit track_bits TRACK_LEFT ∧ HasBit track_bits TRACK_RIGHT) then
    TRACK_BIT_HORZ
  else if ¬(HasBit track_bits TRACK_UPPER ∧ HasBit track_bits TRACK_LOWER) then
    TRACK_BIT_VERT
  else TRACK_BIT_HORZ + TRACK_BIT_VERT

/-- Tail of GetMetroRailReservationTrackBits (the code after the
signaled block): decode of the 3-bit reservation field at bits 12..14;
0 is none, 1..6 is that track plus one, the sentinel 7 means both tracks
of the double-track bundle inferred from the raw topology field.  It is
reached for unsignaled tiles and, by fallthrough (the signaled
single-track branch has no else and no final return), for signaled
single-track tiles whose bit 2 is clear. -/
def metroReservationFieldDecode (w : Nat) : Nat :=
  let track_b := GB w 12 3
  if track_b = 0 then TRACK_BIT_NONE
  else if track_b = TRACK_RESERVATION_BOTH then
    metroSentinelDecode (GB w 0 6)
  else TrackToTrackBits (track_b - 1)

/-- GetMetroRailReservationTrackBits(t): the reservation decode.
Signaled double-track tiles use bits 2 and 5 as per-side flags (sides
selected by the direction), signaled single-track tiles return the track
field when bit 2 is set and otherwise fall through into the unsignaled
3-bit field decode, unsignaled tiles use the 3-bit field decode. -/
def GetMetroRailReservationTrackBits (w : Nat) : Nat :=
  if InnerMetroHasSignals w then
    if InnerMetroHasDoubleTrack w then
      if GetMetroDoubleTrackDirection w then
        (if HasBit w 2 then TRACK_BIT_LEFT else 0)
          + (if HasBit w 5 then TRACK_BIT_RIGHT else 0)
      else
        (if HasBit w 2 then TRACK_BIT_UPPER else 0)
          + (if HasBit w 5 then TRACK_BIT_LOWER else 0)
    else if HasBit w 2 then TrackToTrackBits (GetMetroTrack w)
    else metroReservationFieldDecode w
  else metroReservationFieldDecode w

/-- SetMetroTrackReservation(t, b).  First the alias normalization
switch, then per mode: double-track tiles set bit 5 when a right or
lower side is requested (bit 5 is never cleared) and assign bit 2 from
the left or upper side; single-track tiles assign bit 2 from b being
non-empty; unsignaled tiles write first track plus one into the 3-bit
field, overwritten by the sentinel when more than one track remains. -/
def SetMetroTrackReservation (w b0 : Nat) : Nat :=
  let b :=
    if b0 = TRACK_BIT_N then TRACK_BIT_UPPER
    else if b0 = TRACK_BIT_U then TRACK_BIT_LOWER
    else if b0 = TRACK_BIT_C then TRACK_BIT_LEFT
    else if b0 = TRACK_BIT_RC then TRACK_BIT_RIGHT
    else b0
  if InnerMetroHasSignals w then
    if InnerMetroHasDoubleTrack w then
      let w1 :=
        if HasBit b TRACK_RIGHT || HasBit b TRACK_LOWER then
          AssignBit w 5 true
        else w
      if ¬HasBit b TRACK_LEFT ∧ ¬HasBit b TRACK_UPPER then
        AssignBit w1 2 false
      else AssignBit w1 2 (decide (b ≠ TRACK_BIT_NONE))
    else AssignBit w 2 (decide (b ≠ TRACK_BIT_NONE))
  else
    let tr := RemoveFirstTrack b
    let w1 := SB w 12 3 (if tr.1 = INVALID_TRACK then 0 else tr.1 + 1)
    if tr.2 ≠ TRACK_BIT_NONE then SB w1 12 3 TRACK_RESERVATION_BOTH else w1

/-- TryMetroReserveTrack(tile, t): fail without mutation when the track
is already reserved or when the enlarged reservation overlaps, otherwise
store the enlarged reservation and succeed.  The bitwise tests of the
source, (res & bits) != TRACK_BIT_NONE and res |= bits with
bits = TrackToTrackBits t, are the bit test and the addition below. -/
def TryMetroReserveTrack (w t : Nat) : Bool × Nat :=
  let bits := TrackToTrackBits t
  let res := GetMetroRailReservationTrackBits w
  if HasBit res t then (false, w)
  else
    let res2 := res + bits
    if TracksOverlap res2 then (false, w)
    else (true, SetMetroTrackReservation w res2)

/-- UnreserveMetroTrack(tile, t): clear the track from the reservation
and store the result; res &= ~TrackToTrackBits(t) is the conditional
subtraction below. -/
def UnreserveMetroTrack (w t : Nat) : Nat :=
  let res := GetMetroRailReservationTrackBits w
  let res2 := if HasBit res t then res - TrackToTrackBits t else res
  SetMetroTrackReservation w res2

/-- SetMetroHasSignals(tile, signals): read topology and reservation,
flip the mode bit, re-write both in the new mode's encoding. -/
def SetMetroHasSignals (w : Nat) (signals : Bool) : Nat :=
  let reservation := GetMetroRailReservationTrackBits w
  let tracks := GetMetroTrackBits w
  let w1 := InnerSetMetroHasSignals w signals
  let w2 := SetMetroTrackBits w1 tracks
  SetMetroTrackReservation w2 reservation

/-- TileType tags of the map cells (tile_map.h). -/
inductive TileType where
  | MP_CLEAR
  | MP_RAILWAY
  | MP_ROAD
  | MP_HOUSE
  | MP_TREES
  | MP_STATION
  | MP_WATER
  | MP_VOID
  | MP_INDUSTRY
  | MP_TUNNELBRIDGE
  | MP_OBJECT
deriving DecidableEq

/-- A map tile: the type tag, the payload byte of type(), the words
m1..m8 (m2 and m8 are 16 bits wide, the rest 8), and the two station
classification flags used by the metro owner accessors.  The tag and the
station flags are modelled as separate components: their accessors
(GetTileType, HasStationRail, IsAnyRoadStop) decode other map words in
code that is not part of the verified sources, and the owner accessors
only branch on them. -/
structure Tile where
  ttype : TileType
  typeByte : Nat
  m1 : Nat
  m2 : Nat
  m3 : Nat
  m4 : Nat
  m5 : Nat
  m6 : Nat
  m7 : Nat
  m8 : Nat
  stationRail : Bool
  roadStop : Bool
deriving DecidableEq

/-- GetTileType(t): the tile's type tag. -/
def GetTileType (t : Tile) : TileType := t.ttype

/-- IsTileType(t, type): does the tag match? -/
def IsTileType (t : Tile) (ty : TileType) : Prop := GetTileType t = ty

instance (t : Tile) (ty : TileType) : Decidable (IsTileType t ty) :=
  inferInstanceAs (Decidable (GetTileType t = ty))

/-- IsMetroTile(t): metro is not possible under void. -/
def IsMetroTile (t : Tile) : Prop := ¬IsTileType t TileType.MP_VOID

instance (t : Tile) : Decidable (IsMetroTile t) :=
  inferInstanceAs (Decidable (¬IsTileType t TileType.MP_VOID))

/-- Modelled from the spec: HasStationRail(t) decodes the station type
from the station codec (station_map.h, not among the provided sources);
the owner accessors only branch on its value, so it is carried as a tile
component. -/
def HasStationRail (t : Tile) : Bool := t.stationRail

/-- Modelled from the spec: IsAnyRoadStop(t), as HasStationRail. -/
def IsAnyRoadStop (t : Tile) : Bool := t.roadStop

/-- Modelled from the spec: GetTileOwner(t) of the generic tile codec
(tile_map.h, not among the provided sources) reads the owner field of
m1; its value is only passed through the OWNER_TOWN clamp of
GetMetroTileOwner. -/
def GetTileOwner (t : Tile) : Nat := GB t.m1 0 5

/-- Owner value OWNER_TOWN (0x0F). -/
def OWNER_TOWN : Nat := 15

/-- Owner value OWNER_NONE (0x10). -/
def OWNER_NONE : Nat := 16

/-- GetMetroTileOwner(tile) of metro_map.cpp: per-type scattered-bit
owner decode; owner_bits - 1 on a uint8_t wraps, and every decoded value
at or above OWNER_TOWN collapses to OWNER_NONE. -/
def GetMetroTileOwner (t : Tile) : Nat :=
  let owner : Nat :=
    match GetTileType t with
    | TileType.MP_HOUSE => OWNER_TOWN
    | TileType.MP_INDUSTRY =>
        (GB t.m6 6 2 + (HasBit t.m1 4).toNat * 4 + (HasBit t.typeByte 6).toNat * 8
          + 255) % 256
    | TileType.MP_ROAD => (GB t.m6 0 2 + GB t.m7 5 2 * 4 + 255) % 256
    | TileType.MP_CLEAR => (GB t.m7 4 4 + 255) % 256
    | TileType.MP_TUNNELBRIDGE => (GB t.m2 12 4 + 255) % 256
    | TileType.MP_STATION =>
        if HasStationRail t || IsAnyRoadStop t then GetTileOwner t
        else (GB t.m6 4 4 + 255) % 256
    | _ => (GB t.m6 4 4 + 255) % 256
  if OWNER_TOWN ≤ owner then OWNER_NONE else owner

/-- SetMetroTileOwner(tile, owner) of metro_map.cpp: OWNER_NONE is
stored as 0, any other owner as owner + 1, scattered per type.  The
MP_STATION case asserts that the tile is neither a rail station nor a
road stop and stores like the default case. -/
def SetMetroTileOwner (t : Tile) (owner0 : Nat) : Tile :=
  let owner : Nat := if owner0 = OWNER_NONE then 0 else (owner0 + 1) % 256
  match GetTileType t with
  | TileType.MP_HOUSE => t
  | TileType.MP_INDUSTRY =>
      { t with m6 := SB t.m6 6 2 (GB owner 0 2),
               m1 := AssignBit t.m1 4 (HasBit owner 3),
               typeByte := AssignBit t.typeByte 6 (HasBit owner 4) }
  | TileType.MP_ROAD =>
      { t with m6 := SB t.m6 0 2 (GB owner 0 2),
               m7 := SB t.m7 5 2 (GB owner 2 2) }
  | TileType.MP_CLEAR => { t with m7 := SB t.m7 4 4 owner }
  | TileType.MP_TUNNELBRIDGE => { t with m2 := SB t.m2 12 4 owner }
  | TileType.MP_STATION => { t with m6 := SB t.m6 4 4 owner }
  | _ => { t with m6 := SB t.m6 4 4 owner }

/-- UpdateMetroTileOwner(tile, owner) of metro_map.cpp: a no-op when the
tile has no metro track bits, otherwise SetMetroTileOwner. -/
def UpdateMetroTileOwner (t : Tile) (owner : Nat) : Tile :=
  if GetMetroTrackBits t.m8 = 0 then t else SetMetroTileOwner t owner

/-- Tile-level TryMetroReserveTrack: the function only reads and writes
the m8 word of the tile. -/
def TryMetroReserveTrackOnTile (t : Tile) (track : Nat) : Bool × Tile :=
  let r := TryMetroReserveTrack t.m8 track
  (r.1, { t with m8 := r.2 })

/-- Track-set inclusion, bit by bit over the 8 bits a TrackBits byte can
carry. -/
def sub8 (a b : Nat) : Prop :=
  (HasBit a 0 = true → HasBit b 0 = true) ∧
  (HasBit a 1 = true → HasBit b 1 = true) ∧
  (HasBit a 2 = true → HasBit b 2 = true) ∧
  (HasBit a 3 = true → HasBit b 3 = true) ∧
  (HasBit a 4 = true → HasBit b 4 = true) ∧
  (HasBit a 5 = true → HasBit b 5 = true) ∧
  (HasBit a 6 = true → HasBit b 6 = true) ∧
  (HasBit a 7 = true → HasBit b 7 = true)

instance (a b : Nat) : Decidable (sub8 a b) :=
  inferInstanceAs (Decidable (_ ∧ _))

/-- The eight topology values SetMetroTrackBits recognizes in signaled
mode: the six single tracks and the two double-track bundles. -/
def SignaledTrackBitsValue (b : Nat) : Prop :=
  b = TRACK_BIT_X ∨ b = TRACK_BIT_Y ∨ b = TRACK_BIT_UPPER ∨ b = TRACK_BIT_LOWER ∨
  b = TRACK_BIT_LEFT ∨ b = TRACK_BIT_RIGHT ∨ b = TRACK_BIT_HORZ ∨ b = TRACK_BIT_VERT

instance (b : Nat) : Decidable (SignaledTrackBitsValue b) :=
  inferInstanceAs (Decidable (_ ∨ _))

/-- States of the m8 word reachable from a fresh all-zero word by the
metro operations under the preconditions the claims name: any 6-bit
topology for SetMetroTrackBits, present tracks for the reservation
operations, and for SetMetroTrackReservation a non-overlapping subset of
the topology in the uint8 TrackBits domain. -/
inductive MetroReachable : Nat → Prop where
  | init : MetroReachable 0
  | setTrackBits (w b : Nat) (hb : b < 64) (h : MetroReachable w) :
      MetroReachable (SetMetroTrackBits w b)
  | setHasSignals (w : Nat) (s : Bool) (h : MetroReachable w) :
      MetroReachable (SetMetroHasSignals w s)
  | tryReserve (w t : Nat) (ht : HasMetroTrack w t = true) (h : MetroReachable w) :
      MetroReachable (TryMetroReserveTrack w t).2
  | unreserve (w t : Nat) (ht : HasMetroTrack w t = true) (h : MetroReachable w) :
      MetroReachable (UnreserveMetroTrack w t)
  | setReservation (w b : Nat) (hbyte : b < 256) (hov : TracksOverlap b = false)
      (hsub : sub8 b (GetMetroTrackBits w)) (h : MetroReachable w) :
      MetroReachable (SetMetroTrackReservation w b)

/-- As MetroReachable, but the topology and mode mutations are only
taken while the current reservation is empty, and a signaled tile only
receives one of the eight signaled-mode topology values. -/
inductive MetroReachableSafe : Nat → Prop where
  | init : MetroReachableSafe 0
  | setTrackBits (w b : Nat) (hb : b < 64)
      (hres : GetMetroRailReservationTrackBits w = 0)
      (hsig : InnerMetroHasSignals w = true → SignaledTrackBitsValue b)
      (h : MetroReachableSafe w) :
      MetroReachableSafe (SetMetroTrackBits w b)
  | setHasSignals (w : Nat) (s : Bool)
      (hres : GetMetroRailReservationTrackBits w = 0)
      (h : MetroReachableSafe w) :
      MetroReachableSafe (SetMetroHasSignals w s)
  | tryReserve (w t : Nat) (ht : HasMetroTrack w t = true) (h : MetroReachableSafe w) :
      MetroReachableSafe (TryMetroReserveTrack w t).2
  | unreserve (w t : Nat) (ht : HasMetroTrack w t = true) (h : MetroReachableSafe w) :
      MetroReachableSafe (UnreserveMetroTrack w t)
  | setReservation (w b : Nat) (hbyte : b < 256) (hov : TracksOverlap b = false)
      (hsub : sub8 b (GetMetroTrackBits w)) (h : MetroReachableSafe w) :
      MetroReachableSafe (SetMetroTrackReservation w b)

/-- A track is blocked for TryMetroReserveTrack: it is already in the
decoded reservation, or adding it would overlap.  Once this holds it is
an invariant of further TryMetroReserveTrack calls, which yields the
at-most-one-success property. -/
def ReserveBlocked (w tr : Nat) : Prop :=
  HasBit (GetMetroRailReservationTrackBits w) tr = true ∨
  TracksOverlap (GetMetroRailReservationTrackBits w + TrackToTrackBits tr) = true

instance (w tr : Nat) : Decidable (ReserveBlocked w tr) :=
  inferInstanceAs (Decidable (_ ∨ _))

/-- Run a sequence of TryMetroReserveTrack calls, recording for each
call its track argument and its boolean result. -/
def runTryList (w : Nat) : List Nat → List (Nat × Bool) × Nat
  | [] => ([], w)
  | t :: ts =>
      let r := TryMetroReserveTrack w t
      let rest := runTryList r.2 ts
      ((t, r.1) :: rest.1, rest.2)

/-- The inductive invariant behind the reservation-subset property: the
decoded reservation is contained in the decoded topology, and a signaled
word keeps the bits 12..13 clear (they hold signal attributes, not
reservation state, in signaled mode). -/
def ResInv (w : Nat) : Prop :=
  sub8 (GetMetroRailReservationTrackBits w) (GetMetroTrackBits w) ∧
  (InnerMetroHasSignals w = true → GB w 12 2 = 0)

/-- An all-zero MP_INDUSTRY tile: every map word clear, no station
flags. -/
def industryTileZero : Tile :=
  ⟨TileType.MP_INDUSTRY, 0, 0, 0, 0, 0, 0, 0, 0, 0, false, false⟩

/-- An MP_INDUSTRY tile whose m8 word carries the single track X. -/
def industryTileX : Tile :=
  ⟨TileType.MP_INDUSTRY, 0, 0, 0, 0, 0, 0, 0, 0, 1, false, false⟩



set_option maxHeartbeats 1000000


@[simp] theorem obs_InnerMetroHasSignals_InnerSetMetroHasSignals (w : Nat) (b : Bool) :
    InnerMetroHasSignals (InnerSetMetroHasSignals w b) = b := by cases b <;> (simp only [InnerMetroHasSignals, InnerSetMetroHasSignals, InnerMetroHasDoubleTrack, InnerSetMetroHasDoubleTrack, GetMetroTrack, SetMetroTrack, GetMetroDoubleTrackDirection, SetMetroDoubleTrackDirection, HasBit, GB, SB, AssignBit, Bool.toNat_false, Bool.toNat_true]; simp only [beq_iff_eq, beq_eq_false_iff_ne]; omega)

@[simp] theorem obs_InnerMetroHasSignals_InnerSetMetroHasDoubleTrack (w : Nat) (b : Bool) :
    InnerMetroHasSignals (InnerSetMetroHasDoubleTrack w b) = InnerMetroHasSignals w := by cases b <;> (simp only [InnerMetroHasSignals, InnerSetMetroHasSignals, InnerMetroHasDoubleTrack, InnerSetMetroHasDoubleTrack, GetMetroTrack, SetMetroTrack, GetMetroDoubleTrackDirection, SetMetroDoubleTrackDirection, HasBit, GB, SB, AssignBit, Bool.toNat_false, Bool.toNat_true]; congr 1; omega)

@[simp] theorem obs_InnerMetroHasSignals_SetMetroTrack (w : Nat) (d : Nat) :
    InnerMetroHasSignals (SetMetroTrack w d) = InnerMetroHasSignals w := by simp only [InnerMetroHasSignals, InnerSetMetroHasSignals, InnerMetroHasDoubleTrack, InnerSetMetroHasDoubleTrack, GetMetroTrack, SetMetroTrack, GetMetroDoubleTrackDirection, SetMetroDoubleTrackDirection, HasBit, GB, SB, AssignBit, Bool.toNat_false, Bool.toNat_true]; congr 1; omega

@[simp] theorem obs_InnerMetroHasSignals_SetMetroDoubleTrackDirection (w : Nat) (b : Bool) :
    InnerMetroHasSignals (SetMetroDoubleTrackDirection w b) = InnerMetroHasSignals w := by cases b <;> (simp only [InnerMetroHasSignals, InnerSetMetroHasSignals, InnerMetroHasDoubleTrack, InnerSetMetroHasDoubleTrack, GetMetroTrack, SetMetroTrack, GetMetroDoubleTrackDirection, SetMetroDoubleTrackDirection, HasBit, GB, SB, AssignBit, Bool.toNat_false, Bool.toNat_true]; congr 1; omega)

@[simp] theorem obs_InnerMetroHasSignals_assignBit2 (w : Nat) (b : Bool) :
    InnerMetroHasSignals (AssignBit w 2 b) = InnerMetroHasSignals w := by cases b <;> (simp only [InnerMetroHasSignals, InnerSetMetroHasSignals, InnerMetroHasDoubleTrack, InnerSetMetroHasDoubleTrack, GetMetroTrack, SetMetroTrack, GetMetroDoubleTrackDirection, SetMetroDoubleTrackDirection, HasBit, GB, SB, AssignBit, Bool.toNat_false, Bool.toNat_true]; congr 1; omega)

@[simp] theorem obs_InnerMetroHasSignals_assignBit5 (w : Nat) (b : Bool) :
    InnerMetroHasSignals (AssignBit w 5 b) = InnerMetroHasSignals w := by cases b <;> (simp only [InnerMetroHasSignals, InnerSetMetroHasSignals, InnerMetroHasDoubleTrack, InnerSetMetroHasDoubleTrack, GetMetroTrack, SetMetroTrack, GetMetroDoubleTrackDirection, SetMetroDoubleTrackDirection, HasBit, GB, SB, AssignBit, Bool.toNat_false, Bool.toNat_true]; congr 1; omega)

@[simp] theorem obs_InnerMetroHasSignals_sb06 (w : Nat) (d : Nat) :
    InnerMetroHasSignals (SB w 0 6 d) = InnerMetroHasSignals w := by simp only [InnerMetroHasSignals, InnerSetMetroHasSignals, InnerMetroHasDoubleTrack, InnerSetMetroHasDoubleTrack, GetMetroTrack, SetMetroTrack, GetMetroDoubleTrackDirection, SetMetroDoubleTrackDirection, HasBit, GB, SB, AssignBit, Bool.toNat_false, Bool.toNat_true]; congr 1; omega

@[simp] theorem obs_InnerMetroHasSignals_sb123 (w : Nat) (d : Nat) :
    InnerMetroHasSignals (SB w 12 3 d) = InnerMetroHasSignals w := by simp only [InnerMetroHasSignals, InnerSetMetroHasSignals, InnerMetroHasDoubleTrack, InnerSetMetroHasDoubleTrack, GetMetroTrack, SetMetroTrack, GetMetroDoubleTrackDirection, SetMetroDoubleTrackDirection, HasBit, GB, SB, AssignBit, Bool.toNat_false, Bool.toNat_true]; congr 1; omega

@[simp] theorem obs_InnerMetroHasDoubleTrack_InnerSetMetroHasSignals (w : Nat) (b : Bool) :
    InnerMetroHasDoubleTrack (InnerSetMetroHasSignals w b) = InnerMetroHasDoubleTrack w := by cases b <;> (simp only [InnerMetroHasSignals, InnerSetMetroHasSignals, InnerMetroHasDoubleTrack, InnerSetMetroHasDoubleTrack, GetMetroTrack, SetMetroTrack, GetMetroDoubleTrackDirection, SetMetroDoubleTrackDirection, HasBit, GB, SB, AssignBit, Bool.toNat_false, Bool.toNat_true]; congr 1; omega)

@[simp] theorem obs_InnerMetroHasDoubleTrack_InnerSetMetroHasDoubleTrack (w : Nat) (b : Bool) :
    InnerMetroHasDoubleTrack (InnerSetMetroHasDoubleTrack w b) = b := by cases b <;> (simp only [InnerMetroHasSignals, InnerSetMetroHasSignals, InnerMetroHasDoubleTrack, InnerSetMetroHasDoubleTrack, GetMetroTrack, SetMetroTrack, GetMetroDoubleTrackDirection, SetMetroDoubleTrackDirection, HasBit, GB, SB, AssignBit, Bool.toNat_false, Bool.toNat_true]; simp only [beq_iff_eq, beq_eq_false_iff_ne]; omega)

@[simp] theorem obs_InnerMetroHasDoubleTrack_SetMetroTrack (w : Nat) (d : Nat) :
    InnerMetroHasDoubleTrack (SetMetroTrack w d) = InnerMetroHasDoubleTrack w := by simp only [InnerMetroHasSignals, InnerSetMetroHasSignals, InnerMetroHasDoubleTrack, InnerSetMetroHasDoubleTrack, GetMetroTrack, SetMetroTrack, GetMetroDoubleTrackDirection, SetMetroDoubleTrackDirection, HasBit, GB, SB, AssignBit, Bool.toNat_false, Bool.toNat_true]; congr 1; omega

@[simp] theorem obs_InnerMetroHasDoubleTrack_SetMetroDoubleTrackDirection (w : Nat) (b : Bool) :
    InnerMetroHasDoubleTrack (SetMetroDoubleTrackDirection w b) = InnerMetroHasDoubleTrack w := by cases b <;> (simp only [InnerMetroHasSignals, InnerSetMetroHasSignals, InnerMetroHasDoubleTrack, InnerSetMetroHasDoubleTrack, GetMetroTrack, SetMetroTrack, GetMetroDoubleTrackDirection, SetMetroDoubleTrackDirection, HasBit, GB, SB, AssignBit, Bool.toNat_false, Bool.toNat_true]; congr 1; omega)

@[simp] theorem obs_InnerMetroHasDoubleTrack_assignBit2 (w : Nat) (b : Bool) :
    InnerMetroHasDoubleTrack (AssignBit w 2 b) = InnerMetroHasDoubleTrack w := by cases b <;> (simp only [InnerMetroHasSignals, InnerSetMetroHasSignals, InnerMetroHasDoubleTrack, InnerSetMetroHasDoubleTrack, GetMetroTrack, SetMetroTrack, GetMetroDoubleTrackDirection, SetMetroDoubleTrackDirection, HasBit, GB, SB, AssignBit, Bool.toNat_false, Bool.toNat_true]; congr 1; omega)

@[simp] theorem obs_InnerMetroHasDoubleTrack_assignBit5 (w : Nat) (b : Bool) :
    InnerMetroHasDoubleTrack (AssignBit w 5 b) = InnerMetroHasDoubleTrack w := by cases b <;> (simp only [InnerMetroHasSignals, InnerSetMetroHasSignals, InnerMetroHasDoubleTrack, InnerSetMetroHasDoubleTrack, GetMetroTrack, SetMetroTrack, GetMetroDoubleTrackDirection, SetMetroDoubleTrackDirection, HasBit, GB, SB, AssignBit, Bool.toNat_false, Bool.toNat_true]; congr 1; omega)

@[simp] theorem obs_InnerMetroHasDoubleTrack_sb06 (w : Nat) (d : Nat) :
    InnerMetroHasDoubleTrack (SB w 0 6 d) = InnerMetroHasDoubleTrack w := by simp only [InnerMetroHasSignals, InnerSetMetroHasSignals, InnerMetroHasDoubleTrack, InnerSetMetroHasDoubleTrack, GetMetroTrack, SetMetroTrack, GetMetroDoubleTrackDirection, SetMetroDoubleTrackDirection, HasBit, GB, SB, AssignBit, Bool.toNat_false, Bool.toNat_true]; congr 1; omega

@[simp] theorem obs_InnerMetroHasDoubleTrack_sb123 (w : Nat) (d : Nat) :
    InnerMetroHasDoubleTrack (SB w 12 3 d) = HasBit d 2 := by simp only [InnerMetroHasSignals, InnerSetMetroHasSignals, InnerMetroHasDoubleTrack, InnerSetMetroHasDoubleTrack, GetMetroTrack, SetMetroTrack, GetMetroDoubleTrackDirection, SetMetroDoubleTrackDirection, HasBit, GB, SB, AssignBit, Bool.toNat_false, Bool.toNat_true]; congr 1; omega

@[simp] theorem obs_GetMetroDoubleTrackDirection_InnerSetMetroHasSignals (w : Nat) (b : Bool) :
    GetMetroDoubleTrackDirection (InnerSetMetroHasSignals w b) = GetMetroDoubleTrackDirection w := by cases b <;> (simp only [InnerMetroHasSignals, InnerSetMetroHasSignals, InnerMetroHasDoubleTrack, InnerSetMetroHasDoubleTrack, GetMetroTrack, SetMetroTrack, GetMetroDoubleTrackDirection, SetMetroDoubleTrackDirection, HasBit, GB, SB, AssignBit, Bool.toNat_false, Bool.toNat_true]; congr 1; omega)

@[simp] theorem obs_GetMetroDoubleTrackDirection_InnerSetMetroHasDoubleTrack (w : Nat) (b : Bool) :
    GetMetroDoubleTrackDirection (InnerSetMetroHasDoubleTrack w b) = GetMetroDoubleTrackDirection w := by cases b <;> (simp only [InnerMetroHasSignals, InnerSetMetroHasSignals, InnerMetroHasDoubleTrack, InnerSetMetroHasDoubleTrack, GetMetroTrack, SetMetroTrack, GetMetroDoubleTrackDirection, SetMetroDoubleTrackDirection, HasBit, GB, SB, AssignBit, Bool.toNat_false, Bool.toNat_true]; congr 1; omega)

@[simp] theorem obs_GetMetroDoubleTrackDirection_SetMetroTrack (w : Nat) (d : Nat) :
    GetMetroDoubleTrackDirection (SetMetroTrack w d) = HasBit d 0 := by simp only [InnerMetroHasSignals, InnerSetMetroHasSignals, InnerMetroHasDoubleTrack, InnerSetMetroHasDoubleTrack, GetMetroTrack, SetMetroTrack, GetMetroDoubleTrackDirection, SetMetroDoubleTrackDirection, HasBit, GB, SB, AssignBit, Bool.toNat_false, Bool.toNat_true]; congr 1; omega

@[simp] theorem obs_GetMetroDoubleTrackDirection_SetMetroDoubleTrackDirection (w : Nat) (b : Bool) :
    GetMetroDoubleTrackDirection (SetMetroDoubleTrackDirection w b) = b := by cases b <;> (simp only [InnerMetroHasSignals, InnerSetMetroHasSignals, InnerMetroHasDoubleTrack, InnerSetMetroHasDoubleTrack, GetMetroTrack, SetMetroTrack, GetMetroDoubleTrackDirection, SetMetroDoubleTrackDirection, HasBit, GB, SB, AssignBit, Bool.toNat_false, Bool.toNat_true]; simp only [beq_iff_eq, beq_eq_false_iff_ne]; omega)

@[simp] theorem obs_GetMetroDoubleTrackDirection_assignBit2 (w : Nat) (b : Bool) :
    GetMetroDoubleTrackDirection (AssignBit w 2 b) = GetMetroDoubleTrackDirection w := by cases b <;> (simp only [InnerMetroHasSignals, InnerSetMetroHasSignals, InnerMetroHasDoubleTrack, InnerSetMetroHasDoubleTrack, GetMetroTrack, SetMetroTrack, GetMetroDoubleTrackDirection, SetMetroDoubleTrackDirection, HasBit, GB, SB, AssignBit, Bool.toNat_false, Bool.toNat_true]; congr 1; omega)

@[simp] theorem obs_GetMetroDoubleTrackDirection_assignBit5 (w : Nat) (b : Bool) :
    GetMetroDoubleTrackDirection (AssignBit w 5 b) = GetMetroDoubleTrackDirection w := by cases b <;> (simp only [InnerMetroHasSignals, InnerSetMetroHasSignals, InnerMetroHasDoubleTrack, InnerSetMetroHasDoubleTrack, GetMetroTrack, SetMetroTrack, GetMetroDoubleTrackDirection, SetMetroDoubleTrackDirection, HasBit, GB, SB, AssignBit, Bool.toNat_false, Bool.toNat_true]; congr 1; omega)

@[simp] theorem obs_GetMetroDoubleTrackDirection_sb06 (w : Nat) (d : Nat) :
    GetMetroDoubleTrackDirection (SB w 0 6 d) = HasBit d 3 := by simp only [InnerMetroHasSignals, InnerSetMetroHasSignals, InnerMetroHasDoubleTrack, InnerSetMetroHasDoubleTrack, GetMetroTrack, SetMetroTrack, GetMetroDoubleTrackDirection, SetMetroDoubleTrackDirection, HasBit, GB, SB, AssignBit, Bool.toNat_false, Bool.toNat_true]; congr 1; omega

@[simp] theorem obs_GetMetroDoubleTrackDirection_sb123 (w : Nat) (d : Nat) :
    GetMetroDoubleTrackDirection (SB w 12 3 d) = GetMetroDoubleTrackDirection w := by simp only [InnerMetroHasSignals, InnerSetMetroHasSignals, InnerMetroHasDoubleTrack, InnerSetMetroHasDoubleTrack, GetMetroTrack, SetMetroTrack, GetMetroDoubleTrackDirection, SetMetroDoubleTrackDirection, HasBit, GB, SB, AssignBit, Bool.toNat_false, Bool.toNat_true]; congr 1; omega

@[simp] theorem obs_GetMetroTrack_InnerSetMetroHasSignals (w : Nat) (b : Bool) :
    GetMetroTrack (InnerSetMetroHasSignals w b) = GetMetroTrack w := by cases b <;> (simp only [InnerMetroHasSignals, InnerSetMetroHasSignals, InnerMetroHasDoubleTrack, InnerSetMetroHasDoubleTrack, GetMetroTrack, SetMetroTrack, GetMetroDoubleTrackDirection, SetMetroDoubleTrackDirection, HasBit, GB, SB, AssignBit, Bool.toNat_false, Bool.toNat_true]; omega)

@[simp] theorem obs_GetMetroTrack_InnerSetMetroHasDoubleTrack (w : Nat) (b : Bool) :
    GetMetroTrack (InnerSetMetroHasDoubleTrack w b) = GetMetroTrack w := by cases b <;> (simp only [InnerMetroHasSignals, InnerSetMetroHasSignals, InnerMetroHasDoubleTrack, InnerSetMetroHasDoubleTrack, GetMetroTrack, SetMetroTrack, GetMetroDoubleTrackDirection, SetMetroDoubleTrackDirection, HasBit, GB, SB, AssignBit, Bool.toNat_false, Bool.toNat_true]; omega)

@[simp] theorem obs_GetMetroTrack_SetMetroTrack (w : Nat) (d : Nat) :
    GetMetroTrack (SetMetroTrack w d) = d % 8 := by simp only [InnerMetroHasSignals, InnerSetMetroHasSignals, InnerMetroHasDoubleTrack, InnerSetMetroHasDoubleTrack, GetMetroTrack, SetMetroTrack, GetMetroDoubleTrackDirection, SetMetroDoubleTrackDirection, HasBit, GB, SB, AssignBit, Bool.toNat_false, Bool.toNat_true]; omega

@[simp] theorem obs_GetMetroTrack_SetMetroDoubleTrackDirection (w : Nat) (b : Bool) :
    GetMetroTrack (SetMetroDoubleTrackDirection w b) = GetMetroTrack w / 2 * 2 + Bool.toNat b := by cases b <;> (simp only [InnerMetroHasSignals, InnerSetMetroHasSignals, InnerMetroHasDoubleTrack, InnerSetMetroHasDoubleTrack, GetMetroTrack, SetMetroTrack, GetMetroDoubleTrackDirection, SetMetroDoubleTrackDirection, HasBit, GB, SB, AssignBit, Bool.toNat_false, Bool.toNat_true]; omega)

@[simp] theorem obs_GetMetroTrack_assignBit2 (w : Nat) (b : Bool) :
    GetMetroTrack (AssignBit w 2 b) = GetMetroTrack w := by cases b <;> (simp only [InnerMetroHasSignals, InnerSetMetroHasSignals, InnerMetroHasDoubleTrack, InnerSetMetroHasDoubleTrack, GetMetroTrack, SetMetroTrack, GetMetroDoubleTrackDirection, SetMetroDoubleTrackDirection, HasBit, GB, SB, AssignBit, Bool.toNat_false, Bool.toNat_true]; omega)

@[simp] theorem obs_GetMetroTrack_assignBit5 (w : Nat) (b : Bool) :
    GetMetroTrack (AssignBit w 5 b) = GetMetroTrack w % 4 + Bool.toNat b * 4 := by cases b <;> (simp only [InnerMetroHasSignals, InnerSetMetroHasSignals, InnerMetroHasDoubleTrack, InnerSetMetroHasDoubleTrack, GetMetroTrack, SetMetroTrack, GetMetroDoubleTrackDirection, SetMetroDoubleTrackDirection, HasBit, GB, SB, AssignBit, Bool.toNat_false, Bool.toNat_true]; omega)

@[simp] theorem obs_GetMetroTrack_sb06 (w : Nat) (d : Nat) :
    GetMetroTrack (SB w 0 6 d) = d % 64 / 8 := by simp only [InnerMetroHasSignals, InnerSetMetroHasSignals, InnerMetroHasDoubleTrack, InnerSetMetroHasDoubleTrack, GetMetroTrack, SetMetroTrack, GetMetroDoubleTrackDirection, SetMetroDoubleTrackDirection, HasBit, GB, SB, AssignBit, Bool.toNat_false, Bool.toNat_true]; omega

@[simp] theorem obs_GetMetroTrack_sb123 (w : Nat) (d : Nat) :
    GetMetroTrack (SB w 12 3 d) = GetMetroTrack w := by simp only [InnerMetroHasSignals, InnerSetMetroHasSignals, InnerMetroHasDoubleTrack, InnerSetMetroHasDoubleTrack, GetMetroTrack, SetMetroTrack, GetMetroDoubleTrackDirection, SetMetroDoubleTrackDirection, HasBit, GB, SB, AssignBit, Bool.toNat_false, Bool.toNat_true]; omega

@[simp] theorem obs_hasBit2_InnerSetMetroHasSignals (w : Nat) (b : Bool) :
    HasBit (InnerSetMetroHasSignals w b) 2 = HasBit w 2 := by cases b <;> (simp only [InnerMetroHasSignals, InnerSetMetroHasSignals, InnerMetroHasDoubleTrack, InnerSetMetroHasDoubleTrack, GetMetroTrack, SetMetroTrack, GetMetroDoubleTrackDirection, SetMetroDoubleTrackDirection, HasBit, GB, SB, AssignBit, Bool.toNat_false, Bool.toNat_true]; congr 1; omega)

@[simp] theorem obs_hasBit2_InnerSetMetroHasDoubleTrack (w : Nat) (b : Bool) :
    HasBit (InnerSetMetroHasDoubleTrack w b) 2 = HasBit w 2 := by cases b <;> (simp only [InnerMetroHasSignals, InnerSetMetroHasSignals, InnerMetroHasDoubleTrack, InnerSetMetroHasDoubleTrack, GetMetroTrack, SetMetroTrack, GetMetroDoubleTrackDirection, SetMetroDoubleTrackDirection, HasBit, GB, SB, AssignBit, Bool.toNat_false, Bool.toNat_true]; congr 1; omega)

@[simp] theorem obs_hasBit2_SetMetroTrack (w : Nat) (d : Nat) :
    HasBit (SetMetroTrack w d) 2 = HasBit w 2 := by simp only [InnerMetroHasSignals, InnerSetMetroHasSignals, InnerMetroHasDoubleTrack, InnerSetMetroHasDoubleTrack, GetMetroTrack, SetMetroTrack, GetMetroDoubleTrackDirection, SetMetroDoubleTrackDirection, HasBit, GB, SB, AssignBit, Bool.toNat_false, Bool.toNat_true]; congr 1; omega

@[simp] theorem obs_hasBit2_SetMetroDoubleTrackDirection (w : Nat) (b : Bool) :
    HasBit (SetMetroDoubleTrackDirection w b) 2 = HasBit w 2 := by cases b <;> (simp only [InnerMetroHasSignals, InnerSetMetroHasSignals, InnerMetroHasDoubleTrack, InnerSetMetroHasDoubleTrack, GetMetroTrack, SetMetroTrack, GetMetroDoubleTrackDirection, SetMetroDoubleTrackDirection, HasBit, GB, SB, AssignBit, Bool.toNat_false, Bool.toNat_true]; congr 1; omega)

@[simp] theorem obs_hasBit2_assignBit2 (w : Nat) (b : Bool) :
    HasBit (AssignBit w 2 b) 2 = b := by cases b <;> (simp only [InnerMetroHasSignals, InnerSetMetroHasSignals, InnerMetroHasDoubleTrack, InnerSetMetroHasDoubleTrack, GetMetroTrack, SetMetroTrack, GetMetroDoubleTrackDirection, SetMetroDoubleTrackDirection, HasBit, GB, SB, AssignBit, Bool.toNat_false, Bool.toNat_true]; simp only [beq_iff_eq, beq_eq_false_iff_ne]; omega)

@[simp] theorem obs_hasBit2_assignBit5 (w : Nat) (b : Bool) :
    HasBit (AssignBit w 5 b) 2 = HasBit w 2 := by cases b <;> (simp only [InnerMetroHasSignals, InnerSetMetroHasSignals, InnerMetroHasDoubleTrack, InnerSetMetroHasDoubleTrack, GetMetroTrack, SetMetroTrack, GetMetroDoubleTrackDirection, SetMetroDoubleTrackDirection, HasBit, GB, SB, AssignBit, Bool.toNat_false, Bool.toNat_true]; congr 1; omega)

@[simp] theorem obs_hasBit2_sb06 (w : Nat) (d : Nat) :
    HasBit (SB w 0 6 d) 2 = HasBit d 2 := by simp only [InnerMetroHasSignals, InnerSetMetroHasSignals, InnerMetroHasDoubleTrack, InnerSetMetroHasDoubleTrack, GetMetroTrack, SetMetroTrack, GetMetroDoubleTrackDirection, SetMetroDoubleTrackDirection, HasBit, GB, SB, AssignBit, Bool.toNat_false, Bool.toNat_true]; congr 1; omega

@[simp] theorem obs_hasBit2_sb123 (w : Nat) (d : Nat) :
    HasBit (SB w 12 3 d) 2 = HasBit w 2 := by simp only [InnerMetroHasSignals, InnerSetMetroHasSignals, InnerMetroHasDoubleTrack, InnerSetMetroHasDoubleTrack, GetMetroTrack, SetMetroTrack, GetMetroDoubleTrackDirection, SetMetroDoubleTrackDirection, HasBit, GB, SB, AssignBit, Bool.toNat_false, Bool.toNat_true]; congr 1; omega

@[simp] theorem obs_hasBit5_InnerSetMetroHasSignals (w : Nat) (b : Bool) :
    HasBit (InnerSetMetroHasSignals w b) 5 = HasBit w 5 := by cases b <;> (simp only [InnerMetroHasSignals, InnerSetMetroHasSignals, InnerMetroHasDoubleTrack, InnerSetMetroHasDoubleTrack, GetMetroTrack, SetMetroTrack, GetMetroDoubleTrackDirection, SetMetroDoubleTrackDirection, HasBit, GB, SB, AssignBit, Bool.toNat_false, Bool.toNat_true]; congr 1; omega)

@[simp] theorem obs_hasBit5_InnerSetMetroHasDoubleTrack (w : Nat) (b : Bool) :
    HasBit (InnerSetMetroHasDoubleTrack w b) 5 = HasBit w 5 := by cases b <;> (simp only [InnerMetroHasSignals, InnerSetMetroHasSignals, InnerMetroHasDoubleTrack, InnerSetMetroHasDoubleTrack, GetMetroTrack, SetMetroTrack, GetMetroDoubleTrackDirection, SetMetroDoubleTrackDirection, HasBit, GB, SB, AssignBit, Bool.toNat_false, Bool.toNat_true]; congr 1; omega)

@[simp] theorem obs_hasBit5_SetMetroTrack (w : Nat) (d : Nat) :
    HasBit (SetMetroTrack w d) 5 = HasBit d 2 := by simp only [InnerMetroHasSignals, InnerSetMetroHasSignals, InnerMetroHasDoubleTrack, InnerSetMetroHasDoubleTrack, GetMetroTrack, SetMetroTrack, GetMetroDoubleTrackDirection, SetMetroDoubleTrackDirection, HasBit, GB, SB, AssignBit, Bool.toNat_false, Bool.toNat_true]; congr 1; omega

@[simp] theorem obs_hasBit5_SetMetroDoubleTrackDirection (w : Nat) (b : Bool) :
    HasBit (SetMetroDoubleTrackDirection w b) 5 = HasBit w 5 := by cases b <;> (simp only [InnerMetroHasSignals, InnerSetMetroHasSignals, InnerMetroHasDoubleTrack, InnerSetMetroHasDoubleTrack, GetMetroTrack, SetMetroTrack, GetMetroDoubleTrackDirection, SetMetroDoubleTrackDirection, HasBit, GB, SB, AssignBit, Bool.toNat_false, Bool.toNat_true]; congr 1; omega)

@[simp] theorem obs_hasBit5_assignBit2 (w : Nat) (b : Bool) :
    HasBit (AssignBit w 2 b) 5 = HasBit w 5 := by cases b <;> (simp only [InnerMetroHasSignals, InnerSetMetroHasSignals, InnerMetroHasDoubleTrack, InnerSetMetroHasDoubleTrack, GetMetroTrack, SetMetroTrack, GetMetroDoubleTrackDirection, SetMetroDoubleTrackDirection, HasBit, GB, SB, AssignBit, Bool.toNat_false, Bool.toNat_true]; congr 1; omega)

@[simp] theorem obs_hasBit5_assignBit5 (w : Nat) (b : Bool) :
    HasBit (AssignBit w 5 b) 5 = b := by cases b <;> (simp only [InnerMetroHasSignals, InnerSetMetroHasSignals, InnerMetroHasDoubleTrack, InnerSetMetroHasDoubleTrack, GetMetroTrack, SetMetroTrack, GetMetroDoubleTrackDirection, SetMetroDoubleTrackDirection, HasBit, GB, SB, AssignBit, Bool.toNat_false, Bool.toNat_true]; simp only [beq_iff_eq, beq_eq_false_iff_ne]; omega)

@[simp] theorem obs_hasBit5_sb06 (w : Nat) (d : Nat) :
    HasBit (SB w 0 6 d) 5 = HasBit d 5 := by simp only [InnerMetroHasSignals, InnerSetMetroHasSignals, InnerMetroHasDoubleTrack, InnerSetMetroHasDoubleTrack, GetMetroTrack, SetMetroTrack, GetMetroDoubleTrackDirection, SetMetroDoubleTrackDirection, HasBit, GB, SB, AssignBit, Bool.toNat_false, Bool.toNat_true]; congr 1; omega

@[simp] theorem obs_hasBit5_sb123 (w : Nat) (d : Nat) :
    HasBit (SB w 12 3 d) 5 = HasBit w 5 := by simp only [InnerMetroHasSignals, InnerSetMetroHasSignals, InnerMetroHasDoubleTrack, InnerSetMetroHasDoubleTrack, GetMetroTrack, SetMetroTrack, GetMetroDoubleTrackDirection, SetMetroDoubleTrackDirection, HasBit, GB, SB, AssignBit, Bool.toNat_false, Bool.toNat_true]; congr 1; omega

@[simp] theorem obs_gb06_InnerSetMetroHasSignals (w : Nat) (b : Bool) :
    GB (InnerSetMetroHasSignals w b) 0 6 = GB w 0 6 := by cases b <;> (simp only [InnerMetroHasSignals, InnerSetMetroHasSignals, InnerMetroHasDoubleTrack, InnerSetMetroHasDoubleTrack, GetMetroTrack, SetMetroTrack, GetMetroDoubleTrackDirection, SetMetroDoubleTrackDirection, HasBit, GB, SB, AssignBit, Bool.toNat_false, Bool.toNat_true]; omega)

@[simp] theorem obs_gb06_InnerSetMetroHasDoubleTrack (w : Nat) (b : Bool) :
    GB (InnerSetMetroHasDoubleTrack w b) 0 6 = GB w 0 6 := by cases b <;> (simp only [InnerMetroHasSignals, InnerSetMetroHasSignals, InnerMetroHasDoubleTrack, InnerSetMetroHasDoubleTrack, GetMetroTrack, SetMetroTrack, GetMetroDoubleTrackDirection, SetMetroDoubleTrackDirection, HasBit, GB, SB, AssignBit, Bool.toNat_false, Bool.toNat_true]; omega)

@[simp] theorem obs_gb06_SetMetroTrack (w : Nat) (d : Nat) :
    GB (SetMetroTrack w d) 0 6 = GB w 0 3 + d % 8 * 8 := by simp only [InnerMetroHasSignals, InnerSetMetroHasSignals, InnerMetroHasDoubleTrack, InnerSetMetroHasDoubleTrack, GetMetroTrack, SetMetroTrack, GetMetroDoubleTrackDirection, SetMetroDoubleTrackDirection, HasBit, GB, SB, AssignBit, Bool.toNat_false, Bool.toNat_true]; omega

@[simp] theorem obs_gb06_SetMetroDoubleTrackDirection (w : Nat) (b : Bool) :
    GB (SetMetroDoubleTrackDirection w b) 0 6 = GB w 0 3 + Bool.toNat b * 8 + GB w 4 2 * 16 := by cases b <;> (simp only [InnerMetroHasSignals, InnerSetMetroHasSignals, InnerMetroHasDoubleTrack, InnerSetMetroHasDoubleTrack, GetMetroTrack, SetMetroTrack, GetMetroDoubleTrackDirection, SetMetroDoubleTrackDirection, HasBit, GB, SB, AssignBit, Bool.toNat_false, Bool.toNat_true]; omega)

@[simp] theorem obs_gb06_assignBit2 (w : Nat) (b : Bool) :
    GB (AssignBit w 2 b) 0 6 = GB w 0 2 + Bool.toNat b * 4 + GB w 3 3 * 8 := by cases b <;> (simp only [InnerMetroHasSignals, InnerSetMetroHasSignals, InnerMetroHasDoubleTrack, InnerSetMetroHasDoubleTrack, GetMetroTrack, SetMetroTrack, GetMetroDoubleTrackDirection, SetMetroDoubleTrackDirection, HasBit, GB, SB, AssignBit, Bool.toNat_false, Bool.toNat_true]; omega)

@[simp] theorem obs_gb06_assignBit5 (w : Nat) (b : Bool) :
    GB (AssignBit w 5 b) 0 6 = GB w 0 5 + Bool.toNat b * 32 := by cases b <;> (simp only [InnerMetroHasSignals, InnerSetMetroHasSignals, InnerMetroHasDoubleTrack, InnerSetMetroHasDoubleTrack, GetMetroTrack, SetMetroTrack, GetMetroDoubleTrackDirection, SetMetroDoubleTrackDirection, HasBit, GB, SB, AssignBit, Bool.toNat_false, Bool.toNat_true]; omega)

@[simp] theorem obs_gb06_sb06 (w : Nat) (d : Nat) :
    GB (SB w 0 6 d) 0 6 = d % 64 := by simp only [InnerMetroHasSignals, InnerSetMetroHasSignals, InnerMetroHasDoubleTrack, InnerSetMetroHasDoubleTrack, GetMetroTrack, SetMetroTrack, GetMetroDoubleTrackDirection, SetMetroDoubleTrackDirection, HasBit, GB, SB, AssignBit, Bool.toNat_false, Bool.toNat_true]; omega

@[simp] theorem obs_gb06_sb123 (w : Nat) (d : Nat) :
    GB (SB w 12 3 d) 0 6 = GB w 0 6 := by simp only [InnerMetroHasSignals, InnerSetMetroHasSignals, InnerMetroHasDoubleTrack, InnerSetMetroHasDoubleTrack, GetMetroTrack, SetMetroTrack, GetMetroDoubleTrackDirection, SetMetroDoubleTrackDirection, HasBit, GB, SB, AssignBit, Bool.toNat_false, Bool.toNat_true]; omega

@[simp] theorem obs_gb123_InnerSetMetroHasSignals (w : Nat) (b : Bool) :
    GB (InnerSetMetroHasSignals w b) 12 3 = GB w 12 3 := by cases b <;> (simp only [InnerMetroHasSignals, InnerSetMetroHasSignals, InnerMetroHasDoubleTrack, InnerSetMetroHasDoubleTrack, GetMetroTrack, SetMetroTrack, GetMetroDoubleTrackDirection, SetMetroDoubleTrackDirection, HasBit, GB, SB, AssignBit, Bool.toNat_false, Bool.toNat_true]; omega)

@[simp] theorem obs_gb123_InnerSetMetroHasDoubleTrack (w : Nat) (b : Bool) :
    GB (InnerSetMetroHasDoubleTrack w b) 12 3 = GB w 12 2 + Bool.toNat b * 4 := by cases b <;> (simp only [InnerMetroHasSignals, InnerSetMetroHasSignals, InnerMetroHasDoubleTrack, InnerSetMetroHasDoubleTrack, GetMetroTrack, SetMetroTrack, GetMetroDoubleTrackDirection, SetMetroDoubleTrackDirection, HasBit, GB, SB, AssignBit, Bool.toNat_false, Bool.toNat_true]; omega)

@[simp] theorem obs_gb123_SetMetroTrack (w : Nat) (d : Nat) :
    GB (SetMetroTrack w d) 12 3 = GB w 12 3 := by simp only [InnerMetroHasSignals, InnerSetMetroHasSignals, InnerMetroHasDoubleTrack, InnerSetMetroHasDoubleTrack, GetMetroTrack, SetMetroTrack, GetMetroDoubleTrackDirection, SetMetroDoubleTrackDirection, HasBit, GB, SB, AssignBit, Bool.toNat_false, Bool.toNat_true]; omega

@[simp] theorem obs_gb123_SetMetroDoubleTrackDirection (w : Nat) (b : Bool) :
    GB (SetMetroDoubleTrackDirection w b) 12 3 = GB w 12 3 := by cases b <;> (simp only [InnerMetroHasSignals, InnerSetMetroHasSignals, InnerMetroHasDoubleTrack, InnerSetMetroHasDoubleTrack, GetMetroTrack, SetMetroTrack, GetMetroDoubleTrackDirection, SetMetroDoubleTrackDirection, HasBit, GB, SB, AssignBit, Bool.toNat_false, Bool.toNat_true]; omega)

@[simp] theorem obs_gb123_assignBit2 (w : Nat) (b : Bool) :
    GB (AssignBit w 2 b) 12 3 = GB w 12 3 := by cases b <;> (simp only [InnerMetroHasSignals, InnerSetMetroHasSignals, InnerMetroHasDoubleTrack, InnerSetMetroHasDoubleTrack, GetMetroTrack, SetMetroTrack, GetMetroDoubleTrackDirection, SetMetroDoubleTrackDirection, HasBit, GB, SB, AssignBit, Bool.toNat_false, Bool.toNat_true]; omega)

@[simp] theorem obs_gb123_assignBit5 (w : Nat) (b : Bool) :
    GB (AssignBit w 5 b) 12 3 = GB w 12 3 := by cases b <;> (simp only [InnerMetroHasSignals, InnerSetMetroHasSignals, InnerMetroHasDoubleTrack, InnerSetMetroHasDoubleTrack, GetMetroTrack, SetMetroTrack, GetMetroDoubleTrackDirection, SetMetroDoubleTrackDirection, HasBit, GB, SB, AssignBit, Bool.toNat_false, Bool.toNat_true]; omega)

@[simp] theorem obs_gb123_sb06 (w : Nat) (d : Nat) :
    GB (SB w 0 6 d) 12 3 = GB w 12 3 := by simp only [InnerMetroHasSignals, InnerSetMetroHasSignals, InnerMetroHasDoubleTrack, InnerSetMetroHasDoubleTrack, GetMetroTrack, SetMetroTrack, GetMetroDoubleTrackDirection, SetMetroDoubleTrackDirection, HasBit, GB, SB, AssignBit, Bool.toNat_false, Bool.toNat_true]; omega

@[simp] theorem obs_gb123_sb123 (w : Nat) (d : Nat) :
    GB (SB w 12 3 d) 12 3 = d % 8 := by simp only [InnerMetroHasSignals, InnerSetMetroHasSignals, InnerMetroHasDoubleTrack, InnerSetMetroHasDoubleTrack, GetMetroTrack, SetMetroTrack, GetMetroDoubleTrackDirection, SetMetroDoubleTrackDirection, HasBit, GB, SB, AssignBit, Bool.toNat_false, Bool.toNat_true]; omega

theorem gb123_split (w : Nat) :
    GB w 12 3 = GB w 12 2 + (HasBit w 14).toNat * 4 := by
  cases hb : HasBit w 14 <;>
    simp only [HasBit, beq_iff_eq, beq_eq_false_iff_ne] at hb <;>
    simp only [Bool.toNat_false, Bool.toNat_true, GB] <;> omega

set_option maxHeartbeats 1000000

/-- SetMetroTrackReservation never changes the decoded topology. -/
theorem tracks_setRes (w b : Nat) :
    GetMetroTrackBits (SetMetroTrackReservation w b) = GetMetroTrackBits w := by
  by_cases h15 : InnerMetroHasSignals w = true
  · by_cases h14 : InnerMetroHasDoubleTrack w = true
    · simp only [SetMetroTrackReservation, h15, h14, if_true]
      split_ifs <;> first | contradiction | simp [GetMetroTrackBits, h15, h14]
    · simp only [SetMetroTrackReservation, h15, h14, if_true]
      split_ifs <;> first | contradiction | simp [GetMetroTrackBits, h15, h14]
  · simp only [SetMetroTrackReservation, h15]
    split_ifs <;> first | contradiction | simp [GetMetroTrackBits, h15]

/-- SetMetroTrackReservation never changes the mode bits. -/
theorem sig_setRes (w b : Nat) :
    InnerMetroHasSignals (SetMetroTrackReservation w b) = InnerMetroHasSignals w := by
  simp only [SetMetroTrackReservation]
  split_ifs <;> simp

theorem dbl_setRes (w b : Nat) (h15 : InnerMetroHasSignals w = true) :
    InnerMetroHasDoubleTrack (SetMetroTrackReservation w b) = InnerMetroHasDoubleTrack w := by
  simp only [SetMetroTrackReservation, h15, if_true]
  split_ifs <;> simp


theorem getRes_unsig (w : Nat) (h15 : InnerMetroHasSignals w = false) :
    GetMetroRailReservationTrackBits w = metroReservationFieldDecode w := by
  simp [GetMetroRailReservationTrackBits, h15]

theorem getRes_sig_single (w : Nat) (h15 : InnerMetroHasSignals w = true)
    (h14 : InnerMetroHasDoubleTrack w = false) :
    GetMetroRailReservationTrackBits w =
      if HasBit w 2 then TrackToTrackBits (GetMetroTrack w)
      else metroReservationFieldDecode w := by
  simp [GetMetroRailReservationTrackBits, h15, h14]

theorem getRes_sig_dbl (w : Nat) (h15 : InnerMetroHasSignals w = true)
    (h14 : InnerMetroHasDoubleTrack w = true) :
    GetMetroRailReservationTrackBits w =
      if GetMetroDoubleTrackDirection w then
        (HasBit w 2).toNat * 16 + (HasBit w 5).toNat * 32
      else (HasBit w 2).toNat * 4 + (HasBit w 5).toNat * 8 := by
  simp only [GetMetroRailReservationTrackBits, h15, h14, if_true]
  cases h2 : HasBit w 2 <;> cases h5 : HasBit w 5 <;>
    cases h3 : GetMetroDoubleTrackDirection w <;>
    simp [TRACK_BIT_LEFT, TRACK_BIT_RIGHT, TRACK_BIT_UPPER, TRACK_BIT_LOWER]

theorem getRes_setRes_unsig_zero (w : Nat) (h15 : InnerMetroHasSignals w = false) :
    GetMetroRailReservationTrackBits (SetMetroTrackReservation w 0) = 0 := by
  have e : SetMetroTrackReservation w 0 = SB w 12 3 0 := by
    simp [SetMetroTrackReservation, h15, RemoveFirstTrack, TRACK_BIT_N, TRACK_BIT_U,
      TRACK_BIT_C, TRACK_BIT_RC, TRACK_BIT_NONE, TRACK_BIT_X, TRACK_BIT_Y,
      TRACK_BIT_UPPER, TRACK_BIT_LOWER, TRACK_BIT_LEFT, TRACK_BIT_RIGHT]
  rw [e, getRes_unsig _ (by simp [h15])]
  simp [metroReservationFieldDecode, TRACK_BIT_NONE]


theorem getRes_setRes_unsig_single (w k : Nat) (h15 : InnerMetroHasSignals w = false)
    (hk : k < 6) :
    GetMetroRailReservationTrackBits (SetMetroTrackReservation w (2 ^ k)) = 2 ^ k := by
  have e : SetMetroTrackReservation w (2 ^ k) = SB w 12 3 (k + 1) := by
    interval_cases k <;>
      norm_num [SetMetroTrackReservation, h15, RemoveFirstTrack, FindFirstTrack,
        FindFirstBit, KillFirstBit, HasBit, TRACK_BIT_N, TRACK_BIT_U, TRACK_BIT_C,
        TRACK_BIT_RC, TRACK_BIT_NONE, TRACK_BIT_X, TRACK_BIT_Y, TRACK_BIT_UPPER,
        TRACK_BIT_LOWER, TRACK_BIT_LEFT, TRACK_BIT_RIGHT, INVALID_TRACK,
        INVALID_TRACK_BIT]
  rw [e, getRes_unsig _ (by simp [h15])]
  interval_cases k <;>
    norm_num [metroReservationFieldDecode, TRACK_BIT_NONE, TRACK_RESERVATION_BOTH,
      TrackToTrackBits]

theorem getRes_setRes_unsig_multi (w b : Nat) (h15 : InnerMetroHasSignals w = false)
    (hb : b = 12 ∨ b = 48 ∨ b = 60 ∨ b = 56 ∨ b = 52 ∨ b = 44 ∨ b = 28) :
    GetMetroRailReservationTrackBits (SetMetroTrackReservation w b) =
      metroSentinelDecode (GB w 0 6) := by
  have e : ∃ d, SetMetroTrackReservation w b = SB (SB w 12 3 d) 12 3 7 := by
    rcases hb with rfl | rfl | rfl | rfl | rfl | rfl | rfl <;>
      (norm_num [SetMetroTrackReservation, h15, RemoveFirstTrack, FindFirstTrack,
        FindFirstBit, KillFirstBit, HasBit, TRACK_BIT_N, TRACK_BIT_U, TRACK_BIT_C,
        TRACK_BIT_RC, TRACK_BIT_NONE, TRACK_BIT_X, TRACK_BIT_Y, TRACK_BIT_UPPER,
        TRACK_BIT_LOWER, TRACK_BIT_LEFT, TRACK_BIT_RIGHT, INVALID_TRACK,
        INVALID_TRACK_BIT, TRACK_RESERVATION_BOTH]) <;>
      exact ⟨_, rfl⟩
  obtain ⟨d, e⟩ := e
  rw [e, getRes_unsig _ (by simp [h15])]
  simp [metroReservationFieldDecode, TRACK_RESERVATION_BOTH]

theorem getRes_setRes_sig_single_pos (w b : Nat) (h15 : InnerMetroHasSignals w = true)
    (h14 : InnerMetroHasDoubleTrack w = false) (hb : b ≠ 0) :
    GetMetroRailReservationTrackBits (SetMetroTrackReservation w b) =
      TrackToTrackBits (GetMetroTrack w) := by
  have e : SetMetroTrackReservation w b = AssignBit w 2 true := by
    simp only [SetMetroTrackReservation, h15, h14, if_true]
    split_ifs <;> first
      | contradiction
      | (congr 1 <;>
         simp_all [TRACK_BIT_N, TRACK_BIT_U, TRACK_BIT_C, TRACK_BIT_RC,
           TRACK_BIT_NONE, TRACK_BIT_X, TRACK_BIT_Y, TRACK_BIT_UPPER,
           TRACK_BIT_LOWER, TRACK_BIT_LEFT, TRACK_BIT_RIGHT])
  rw [e, getRes_sig_single _ (by simp [h15]) (by simp [h14])]
  simp

theorem getRes_setRes_sig_single_zero (w : Nat) (h15 : InnerMetroHasSignals w = true)
    (h14 : InnerMetroHasDoubleTrack w = false) (hjunk : GB w 12 3 = 0) :
    GetMetroRailReservationTrackBits (SetMetroTrackReservation w 0) = 0 := by
  have e : SetMetroTrackReservation w 0 = AssignBit w 2 false := by
    norm_num [SetMetroTrackReservation, h15, h14, TRACK_BIT_N, TRACK_BIT_U,
      TRACK_BIT_C, TRACK_BIT_RC, TRACK_BIT_NONE, TRACK_BIT_X, TRACK_BIT_Y,
      TRACK_BIT_UPPER, TRACK_BIT_LOWER, TRACK_BIT_LEFT, TRACK_BIT_RIGHT]
  rw [e, getRes_sig_single _ (by simp [h15]) (by simp [h14])]
  simp [metroReservationFieldDecode, hjunk, TRACK_BIT_NONE]

theorem getRes_setRes_sig_dbl_horz (w b : Nat) (h15 : InnerMetroHasSignals w = true)
    (h14 : InnerMetroHasDoubleTrack w = true)
    (hdir : GetMetroDoubleTrackDirection w = false)
    (hb : b = 0 ∨ b = 4 ∨ b = 8 ∨ b = 12) :
    GetMetroRailReservationTrackBits (SetMetroTrackReservation w b) =
      (if b = 4 ∨ b = 12 then 4 else 0)
        + (if HasBit w 5 = true ∨ b = 8 ∨ b = 12 then 8 else 0) := by
  rcases hb with rfl | rfl | rfl | rfl <;>
    (norm_num [SetMetroTrackReservation, h15, h14, TRACK_BIT_N, TRACK_BIT_U,
       TRACK_BIT_C, TRACK_BIT_RC, TRACK_BIT_NONE, TRACK_BIT_X, TRACK_BIT_Y,
       TRACK_BIT_UPPER, TRACK_BIT_LOWER, TRACK_BIT_LEFT, TRACK_BIT_RIGHT,
       TRACK_RIGHT, TRACK_LOWER, TRACK_LEFT, TRACK_UPPER, HasBit]
     rw [getRes_sig_dbl _ (by simp [h15]) (by simp [h14])]
     cases h5 : HasBit w 5 <;>
       (have h5x := h5
        norm_num [HasBit] at h5x
        simp [hdir, h5, h5x] <;> omega))

theorem getRes_setRes_sig_dbl_vert (w b : Nat) (h15 : InnerMetroHasSignals w = true)
    (h14 : InnerMetroHasDoubleTrack w = true)
    (hdir : GetMetroDoubleTrackDirection w = true)
    (hb : b = 0 ∨ b = 16 ∨ b = 32 ∨ b = 48) :
    GetMetroRailReservationTrackBits (SetMetroTrackReservation w b) =
      (if b = 16 ∨ b = 48 then 16 else 0)
        + (if HasBit w 5 = true ∨ b = 32 ∨ b = 48 then 32 else 0) := by
  rcases hb with rfl | rfl | rfl | rfl <;>
    (norm_num [SetMetroTrackReservation, h15, h14, TRACK_BIT_N, TRACK_BIT_U,
       TRACK_BIT_C, TRACK_BIT_RC, TRACK_BIT_NONE, TRACK_BIT_X, TRACK_BIT_Y,
       TRACK_BIT_UPPER, TRACK_BIT_LOWER, TRACK_BIT_LEFT, TRACK_BIT_RIGHT,
       TRACK_RIGHT, TRACK_LOWER, TRACK_LEFT, TRACK_UPPER, HasBit]
     rw [getRes_sig_dbl _ (by simp [h15]) (by simp [h14])]
     cases h5 : HasBit w 5 <;>
       (have h5x := h5
        norm_num [HasBit] at h5x
        simp [hdir, h5, h5x] <;> omega))

theorem hasBit_lt {x t k : Nat} (hx : x < 2 ^ k) (h : HasBit x t = true) : t < k := by
  by_contra hc
  push_neg at hc
  have h2 : x < 2 ^ t := lt_of_lt_of_le hx (Nat.pow_le_pow_right (by norm_num) hc)
  have h3 : x / 2 ^ t = 0 := Nat.div_eq_of_lt h2
  simp [HasBit, h3] at h

theorem hasBit_two_pow {k t : Nat} : HasBit (2 ^ k) t = true ↔ t = k := by
  constructor
  · intro h
    rcases lt_trichotomy t k with hlt | heq | hgt
    · exfalso
      have h1 : (2 : Nat) ^ k / 2 ^ t = 2 ^ (k - t) := Nat.pow_div hlt.le (by norm_num)
      have h2 : k - t ≠ 0 := by omega
      rcases Nat.exists_eq_succ_of_ne_zero h2 with ⟨m, hm⟩
      have h3 : (2 : Nat) ^ (k - t) % 2 = 0 := by
        rw [hm, pow_succ]
        exact Nat.mul_mod_left _ _
      simp [HasBit, h1, h3] at h
    · exact heq
    · exfalso
      have := hasBit_lt (Nat.pow_lt_pow_right (by norm_num) hgt) h
      omega
  · rintro rfl
    have h1 : (2 : Nat) ^ t / 2 ^ t = 1 := Nat.div_self (Nat.pos_pow_of_pos t (by norm_num))
    simp [HasBit, h1]

theorem hasBit_add_pow {x t : Nat} (h : HasBit x t = false) :
    HasBit (x + 2 ^ t) t = true := by
  have hp : 0 < 2 ^ t := Nat.pos_pow_of_pos t (by norm_num)
  simp only [HasBit, beq_iff_eq, beq_eq_false_iff_ne] at *
  rw [Nat.add_div_right _ hp]
  omega

theorem metroSentinelDecode_cases (x : Nat) :
    metroSentinelDecode x = 12 ∨ metroSentinelDecode x = 48 ∨ metroSentinelDecode x = 60 := by
  simp only [metroSentinelDecode, TRACK_BIT_HORZ, TRACK_BIT_VERT]
  split_ifs <;> simp

theorem metroReservationFieldDecode_cases (w : Nat) :
    metroReservationFieldDecode w = 0 ∨ (∃ j, j < 6 ∧ metroReservationFieldDecode w = 2 ^ j) ∨
    metroReservationFieldDecode w = 12 ∨ metroReservationFieldDecode w = 48 ∨
    metroReservationFieldDecode w = 60 := by
  have hf : GB w 12 3 < 8 := by unfold GB; omega
  simp only [metroReservationFieldDecode, TRACK_BIT_NONE, TRACK_RESERVATION_BOTH,
    TrackToTrackBits]
  split_ifs with h1 h2
  · simp
  · rcases metroSentinelDecode_cases (GB w 0 6) with h | h | h <;> simp [h]
  · right; left
    exact ⟨GB w 12 3 - 1, by omega, rfl⟩

theorem sentinel_blocked {r tr : Nat} (hr : r = 12 ∨ r = 48 ∨ r = 60) (htr : tr < 6) :
    HasBit r tr = true ∨ TracksOverlap (r + TrackToTrackBits tr) = true := by
  rcases hr with rfl | rfl | rfl <;> interval_cases tr <;>
    simp [HasBit, TracksOverlap, TrackToTrackBits, KillFirstBit, FindFirstBit,
      TRACK_BIT_NONE, TRACK_BIT_HORZ, TRACK_BIT_VERT]

theorem two_pow_pair_no_overlap {j tr : Nat} (hj : j < 6) (htr : tr < 6) (hne : j ≠ tr)
    (h : TracksOverlap (2 ^ j + 2 ^ tr) = false) :
    2 ^ j + 2 ^ tr = 12 ∨ 2 ^ j + 2 ^ tr = 48 := by
  interval_cases j <;> interval_cases tr <;> revert h <;> first | omega | decide

theorem getTrackBits_unsig_lt (w : Nat) (h15 : InnerMetroHasSignals w = false) :
    GetMetroTrackBits w < 64 := by
  simp only [GetMetroTrackBits, h15, Bool.false_eq_true, if_false]
  unfold GB; omega

theorem overlap_single {t : Nat} (ht : t < 8) : TracksOverlap (2 ^ t) = false := by
  interval_cases t <;> decide

theorem blocked_succ_unsig {w tr t' : Nat} (h15 : InnerMetroHasSignals w = false)
    (htr : HasMetroTrack w tr = true) (ht' : HasMetroTrack w t' = true)
    (hb : HasBit (GetMetroRailReservationTrackBits w) t' = false)
    (hov : TracksOverlap (GetMetroRailReservationTrackBits w + TrackToTrackBits t') = false)
    (hside : tr = t' ∨ ReserveBlocked w tr) :
    ReserveBlocked
      (SetMetroTrackReservation w (GetMetroRailReservationTrackBits w + TrackToTrackBits t')) tr := by
  have htr6 : tr < 6 := hasBit_lt (getTrackBits_unsig_lt w h15) htr
  have ht6 : t' < 6 := hasBit_lt (getTrackBits_unsig_lt w h15) ht'
  have hres := getRes_unsig w h15
  rcases metroReservationFieldDecode_cases w with hr | ⟨j, hj, hrj⟩ | hr | hr | hr
  · -- empty reservation: single-bit write
    have hEq : GetMetroRailReservationTrackBits w = 0 := by rw [hres, hr]
    have htt : tr = t' := by
      rcases hside with h | h
      · exact h
      · exfalso
        rcases h with h | h
        · rw [hEq] at h; simp [HasBit] at h
        · rw [hEq, TrackToTrackBits, zero_add] at h
          rw [overlap_single (show tr < 8 by omega)] at h
          simp at h
    subst htt
    rw [hEq, TrackToTrackBits]
    have := getRes_setRes_unsig_single w tr h15 htr6
    left
    rw [show (0 : Nat) + 2 ^ tr = 2 ^ tr by omega, this]
    exact hasBit_two_pow.2 rfl
  · -- singleton reservation: the write stores a bundle sentinel
    have hEq : GetMetroRailReservationTrackBits w = 2 ^ j := by rw [hres, hrj]
    have hne : j ≠ t' := by
      intro h
      subst h
      rw [hEq] at hb
      rw [hasBit_two_pow.2 rfl] at hb
      cases hb
    have hpair : 2 ^ j + 2 ^ t' = 12 ∨ 2 ^ j + 2 ^ t' = 48 := by
      apply two_pow_pair_no_overlap hj ht6 hne
      rw [hEq, TrackToTrackBits] at hov
      exact hov
    rw [hEq, TrackToTrackBits]
    have hmulti := getRes_setRes_unsig_multi w (2 ^ j + 2 ^ t') h15
      (by rcases hpair with h | h <;> simp [h])
    unfold ReserveBlocked
    rw [hmulti]
    exact sentinel_blocked (metroSentinelDecode_cases _) htr6
  all_goals
  · -- bundle or crossing reservation: no track can be added
    exfalso
    have hEq := hres.trans hr
    rw [hEq] at hb
    rw [hEq, TrackToTrackBits] at hov
    interval_cases t' <;> simp_all [HasBit, TracksOverlap, KillFirstBit, FindFirstBit,
      TRACK_BIT_NONE, TRACK_BIT_HORZ, TRACK_BIT_VERT]

theorem blocked_succ_sig_dbl {w tr t' : Nat} (h15 : InnerMetroHasSignals w = true)
    (h14 : InnerMetroHasDoubleTrack w = true)
    (htr : HasMetroTrack w tr = true) (ht' : HasMetroTrack w t' = true)
    (hb : HasBit (GetMetroRailReservationTrackBits w) t' = false)
    (hov : TracksOverlap (GetMetroRailReservationTrackBits w + TrackToTrackBits t') = false)
    (hside : tr = t' ∨ ReserveBlocked w tr) :
    ReserveBlocked
      (SetMetroTrackReservation w (GetMetroRailReservationTrackBits w + TrackToTrackBits t')) tr := by
  cases hdir : GetMetroDoubleTrackDirection w
  · have e : GetMetroTrackBits w = 12 := by
      simp [GetMetroTrackBits, h15, h14, hdir, TRACK_BIT_HORZ]
    have htr2 := htr; have ht2 := ht'
    simp only [HasMetroTrack, e] at htr2 ht2
    have htr4 : tr < 4 := hasBit_lt (show (12 : Nat) < 2 ^ 4 by norm_num) htr2
    have ht4 : t' < 4 := hasBit_lt (show (12 : Nat) < 2 ^ 4 by norm_num) ht2
    have hres := getRes_sig_dbl w h15 h14
    rw [hdir] at hres
    simp only [Bool.false_eq_true, if_false] at hres
    cases c2 : HasBit w 2 <;> cases c5 : HasBit w 5 <;>
      rw [c2, c5] at hres <;>
      simp only [Bool.toNat_false, Bool.toNat_true] at hres <;>
      norm_num at hres <;>
      interval_cases tr <;> interval_cases t' <;>
      first
      | (exfalso; simp [HasBit] at htr2; done)
      | (exfalso; simp [HasBit] at ht2; done)
      | (exfalso; rw [hres] at hb; simp [HasBit] at hb; done)
      | (exfalso; rw [hres] at hov; revert hov; decide)
      | (exfalso
         rcases hside with h | h
         · omega
         · unfold ReserveBlocked at h
           rw [hres] at h
           revert h
           decide)
      | (rw [hres]
         norm_num [TrackToTrackBits]
         unfold ReserveBlocked
         rw [getRes_setRes_sig_dbl_horz w _ h15 h14 hdir (by norm_num), c5]
         decide)
  · have e : GetMetroTrackBits w = 48 := by
      simp [GetMetroTrackBits, h15, h14, hdir, TRACK_BIT_VERT]
    have htr2 := htr; have ht2 := ht'
    simp only [HasMetroTrack, e] at htr2 ht2
    have htr4 : tr < 6 := hasBit_lt (show (48 : Nat) < 2 ^ 6 by norm_num) htr2
    have ht4 : t' < 6 := hasBit_lt (show (48 : Nat) < 2 ^ 6 by norm_num) ht2
    have hres := getRes_sig_dbl w h15 h14
    rw [hdir] at hres
    simp only [if_true] at hres
    cases c2 : HasBit w 2 <;> cases c5 : HasBit w 5 <;>
      rw [c2, c5] at hres <;>
      simp only [Bool.toNat_false, Bool.toNat_true] at hres <;>
      norm_num at hres <;>
      interval_cases tr <;> interval_cases t' <;>
      first
      | (exfalso; simp [HasBit] at htr2; done)
      | (exfalso; simp [HasBit] at ht2; done)
      | (exfalso; rw [hres] at hb; simp [HasBit] at hb; done)
      | (exfalso; rw [hres] at hov; revert hov; decide)
      | (exfalso
         rcases hside with h | h
         · omega
         · unfold ReserveBlocked at h
           rw [hres] at h
           revert h
           decide)
      | (rw [hres]
         norm_num [TrackToTrackBits]
         unfold ReserveBlocked
         rw [getRes_setRes_sig_dbl_vert w _ h15 h14 hdir (by norm_num), c5]
         decide)


theorem try_fail_of_blocked {w tr : Nat} (h : ReserveBlocked w tr) :
    TryMetroReserveTrack w tr = (false, w) := by
  rcases h with h | h
  · simp [TryMetroReserveTrack, h]
  · by_cases h2 : HasBit (GetMetroRailReservationTrackBits w) tr = true
    · simp [TryMetroReserveTrack, h2]
    · simp [TryMetroReserveTrack, h2, h]

theorem tracks_try (w t : Nat) :
    GetMetroTrackBits (TryMetroReserveTrack w t).2 = GetMetroTrackBits w := by
  simp only [TryMetroReserveTrack]
  split_ifs <;> simp [tracks_setRes]

theorem hasTrack_try (w t x : Nat) :
    HasMetroTrack (TryMetroReserveTrack w t).2 x = HasMetroTrack w x := by
  simp [HasMetroTrack, tracks_try]

theorem try_success_parts {w tr : Nat} (h : (TryMetroReserveTrack w tr).1 = true) :
    HasBit (GetMetroRailReservationTrackBits w) tr = false ∧
    TracksOverlap (GetMetroRailReservationTrackBits w + TrackToTrackBits tr) = false ∧
    (TryMetroReserveTrack w tr).2 =
      SetMetroTrackReservation w (GetMetroRailReservationTrackBits w + TrackToTrackBits tr) := by
  by_cases hb : HasBit (GetMetroRailReservationTrackBits w) tr = true
  · simp [TryMetroReserveTrack, hb] at h
  · by_cases hov : TracksOverlap (GetMetroRailReservationTrackBits w + TrackToTrackBits tr) = true
    · simp [TryMetroReserveTrack, hb, hov] at h
    · refine ⟨by simpa using hb, by simpa using hov, ?_⟩
      simp [TryMetroReserveTrack, hb, hov]

theorem blocked_succ_sig_single {w tr t' : Nat} (h15 : InnerMetroHasSignals w = true)
    (h14 : InnerMetroHasDoubleTrack w = false)
    (htr : HasMetroTrack w tr = true) :
    ReserveBlocked
      (SetMetroTrackReservation w (GetMetroRailReservationTrackBits w + TrackToTrackBits t')) tr := by
  have e : GetMetroTrackBits w = 2 ^ GetMetroTrack w := by
    simp [GetMetroTrackBits, h15, h14, TrackToTrackBits]
  have htrk : tr = GetMetroTrack w := by
    have h2 := htr
    simp only [HasMetroTrack, e] at h2
    exact hasBit_two_pow.1 h2
  have hbne : GetMetroRailReservationTrackBits w + TrackToTrackBits t' ≠ 0 := by
    have hp : 0 < 2 ^ t' := Nat.pos_pow_of_pos t' (by norm_num)
    unfold TrackToTrackBits
    omega
  unfold ReserveBlocked
  rw [getRes_setRes_sig_single_pos w _ h15 h14 hbne]
  left
  subst htrk
  simp [TrackToTrackBits, hasBit_two_pow]

theorem blocked_succ {w tr t' : Nat} (htr : HasMetroTrack w tr = true)
    (ht' : HasMetroTrack w t' = true) (hs : (TryMetroReserveTrack w t').1 = true)
    (hside : tr = t' ∨ ReserveBlocked w tr) :
    ReserveBlocked (TryMetroReserveTrack w t').2 tr := by
  obtain ⟨hb, hov, hstate⟩ := try_success_parts hs
  rw [hstate]
  by_cases h15 : InnerMetroHasSignals w = true
  · by_cases h14 : InnerMetroHasDoubleTrack w = true
    · exact blocked_succ_sig_dbl h15 h14 htr ht' hb hov hside
    · exact blocked_succ_sig_single h15 (by simpa using h14) htr
  · exact blocked_succ_unsig (by simpa using h15) htr ht' hb hov hside

theorem blocked_step {w tr t' : Nat} (htr : HasMetroTrack w tr = true)
    (ht' : HasMetroTrack w t' = true) (hP : ReserveBlocked w tr) :
    ReserveBlocked (TryMetroReserveTrack w t').2 tr := by
  by_cases hs : (TryMetroReserveTrack w t').1 = true
  · exact blocked_succ htr ht' hs (Or.inr hP)
  · have hstate : (TryMetroReserveTrack w t').2 = w := by
      by_cases hb : HasBit (GetMetroRailReservationTrackBits w) t' = true
      · simp [TryMetroReserveTrack, hb]
      · by_cases hov :
          TracksOverlap (GetMetroRailReservationTrackBits w + TrackToTrackBits t') = true
        · simp [TryMetroReserveTrack, hb, hov]
        · exfalso
          apply hs
          simp [TryMetroReserveTrack, hb, hov]
    rw [hstate]
    exact hP

theorem count_zero_of_blocked :
    ∀ (ts : List Nat) (w tr : Nat), HasMetroTrack w tr = true →
      (∀ t ∈ ts, HasMetroTrack w t = true) → ReserveBlocked w tr →
      (runTryList w ts).1.countP (fun p => p.1 == tr && p.2) = 0 := by
  intro ts
  induction ts with
  | nil => intro w tr _ _ _; simp [runTryList]
  | cons t ts ih =>
    intro w tr htr hall hP
    have ht : HasMetroTrack w t = true := hall t (by simp)
    simp only [runTryList, List.countP_cons]
    have hrec := ih (TryMetroReserveTrack w t).2 tr
      (by rw [hasTrack_try]; exact htr)
      (fun x hx => by rw [hasTrack_try]; exact hall x (by simp [hx]))
      (blocked_step htr ht hP)
    rw [hrec]
    by_cases he : t = tr
    · subst he
      rw [try_fail_of_blocked hP]
      simp
    · simp [he]

theorem count_le_one :
    ∀ (ts : List Nat) (w tr : Nat), HasMetroTrack w tr = true →
      (∀ t ∈ ts, HasMetroTrack w t = true) →
      (runTryList w ts).1.countP (fun p => p.1 == tr && p.2) ≤ 1 := by
  intro ts
  induction ts with
  | nil => intro w tr _ _; simp [runTryList]
  | cons t ts ih =>
    intro w tr htr hall
    have ht : HasMetroTrack w t = true := hall t (by simp)
    simp only [runTryList, List.countP_cons]
    have htail : ∀ x ∈ ts, HasMetroTrack (TryMetroReserveTrack w t).2 x = true :=
      fun x hx => by rw [hasTrack_try]; exact hall x (by simp [hx])
    have htr' : HasMetroTrack (TryMetroReserveTrack w t).2 tr = true := by
      rw [hasTrack_try]; exact htr
    by_cases hs : (TryMetroReserveTrack w t).1 = true
    · by_cases he : t = tr
      · subst he
        have hz := count_zero_of_blocked ts (TryMetroReserveTrack w t).2 t htr' htail
          (blocked_succ htr htr hs (Or.inl rfl))
        rw [hz]
        simp [hs]
      · have := ih (TryMetroReserveTrack w t).2 tr htr' htail
        simp [he]
        omega
    · have := ih (TryMetroReserveTrack w t).2 tr htr' htail
      have hs' : (TryMetroReserveTrack w t).1 = false := by simpa using hs
      simp [hs']
      omega




set_option maxHeartbeats 1000000

@[simp] theorem obs_gb122_InnerSetMetroHasSignals (w : Nat) (b : Bool) :
    GB (InnerSetMetroHasSignals w b) 12 2 = GB w 12 2 := by
  cases b <;> (simp only [InnerSetMetroHasSignals, GB, SB, AssignBit, Bool.toNat_false,
    Bool.toNat_true]; omega)

@[simp] theorem obs_gb122_InnerSetMetroHasDoubleTrack (w : Nat) (b : Bool) :
    GB (InnerSetMetroHasDoubleTrack w b) 12 2 = GB w 12 2 := by
  cases b <;> (simp only [InnerSetMetroHasDoubleTrack, GB, SB, AssignBit, Bool.toNat_false,
    Bool.toNat_true]; omega)

@[simp] theorem obs_gb122_SetMetroTrack (w d : Nat) :
    GB (SetMetroTrack w d) 12 2 = GB w 12 2 := by
  simp only [SetMetroTrack, GB, SB]; omega

@[simp] theorem obs_gb122_SetMetroDoubleTrackDirection (w : Nat) (b : Bool) :
    GB (SetMetroDoubleTrackDirection w b) 12 2 = GB w 12 2 := by
  cases b <;> (simp only [SetMetroDoubleTrackDirection, GB, SB, AssignBit, Bool.toNat_false,
    Bool.toNat_true]; omega)

@[simp] theorem obs_gb122_assignBit2 (w : Nat) (b : Bool) :
    GB (AssignBit w 2 b) 12 2 = GB w 12 2 := by
  cases b <;> (simp only [GB, SB, AssignBit, Bool.toNat_false, Bool.toNat_true]; omega)

@[simp] theorem obs_gb122_assignBit5 (w : Nat) (b : Bool) :
    GB (AssignBit w 5 b) 12 2 = GB w 12 2 := by
  cases b <;> (simp only [GB, SB, AssignBit, Bool.toNat_false, Bool.toNat_true]; omega)

@[simp] theorem obs_gb122_sb06 (w d : Nat) :
    GB (SB w 0 6 d) 12 2 = GB w 12 2 := by
  simp only [GB, SB]; omega

@[simp] theorem obs_gb122_sb123 (w d : Nat) :
    GB (SB w 12 3 d) 12 2 = d % 4 := by
  simp only [GB, SB]; omega

theorem sub8_zero (x : Nat) : sub8 0 x := by
  simp [sub8, HasBit]

theorem sub8_refl_like {a b : Nat} (h : a = b) : sub8 a b := by
  subst h
  unfold sub8
  refine ⟨?_, ?_, ?_, ?_, ?_, ?_, ?_, ?_⟩ <;> exact fun h => h

theorem metroReservationFieldDecode_lt (w : Nat) : metroReservationFieldDecode w < 64 := by
  have h : GB w 12 3 < 8 := by unfold GB; omega
  simp only [metroReservationFieldDecode, TrackToTrackBits, TRACK_BIT_NONE,
    TRACK_RESERVATION_BOTH]
  split_ifs with h1 h2 <;> try omega
  · rcases metroSentinelDecode_cases (GB w 0 6) with h3 | h3 | h3 <;> omega
  · calc 2 ^ (GB w 12 3 - 1) ≤ 2 ^ 5 := Nat.pow_le_pow_right (by norm_num) (by omega)
      _ < 64 := by norm_num

theorem getRes_lt (w : Nat) : GetMetroRailReservationTrackBits w < 256 := by
  have h : GetMetroTrack w < 8 := by unfold GetMetroTrack GB; omega
  have hd : metroReservationFieldDecode w < 64 := metroReservationFieldDecode_lt w
  simp only [GetMetroRailReservationTrackBits, TrackToTrackBits]
  split_ifs <;> try omega
  all_goals
    first
    | (calc 2 ^ GetMetroTrack w ≤ 2 ^ 7 := Nat.pow_le_pow_right (by norm_num) (by omega)
        _ < 256 := by norm_num)
    | norm_num [TRACK_BIT_LEFT, TRACK_BIT_RIGHT, TRACK_BIT_UPPER, TRACK_BIT_LOWER]

theorem sub8_add_pow {res tracks t : Nat} (ht8 : t < 8) (hres : res < 256)
    (hsub : sub8 res tracks) (htk : HasBit tracks t = true)
    (hclear : HasBit res t = false) : sub8 (res + 2 ^ t) tracks := by
  unfold sub8 at *
  simp only [HasBit, beq_iff_eq, beq_eq_false_iff_ne] at *
  obtain ⟨a0, a1, a2, a3, a4, a5, a6, a7⟩ := hsub
  have key : ∀ i, i < 8 → i ≠ t → (res + 2 ^ t) / 2 ^ i % 2 = res / 2 ^ i % 2 := by
    clear a0 a1 a2 a3 a4 a5 a6 a7 htk
    intro i hi hne
    interval_cases t <;> interval_cases i <;> omega
  have keyt : (res + 2 ^ t) / 2 ^ t % 2 = 1 := by
    clear a0 a1 a2 a3 a4 a5 a6 a7 htk key
    have hp : 0 < 2 ^ t := Nat.pos_pow_of_pos t (by norm_num)
    rw [Nat.add_div_right _ hp]
    omega
  refine ⟨?_, ?_, ?_, ?_, ?_, ?_, ?_, ?_⟩ <;> intro h
  · rcases eq_or_ne t 0 with rfl | hne
    · exact htk
    · exact a0 ((key 0 (by norm_num) (Ne.symm hne)).symm.trans h)
  · rcases eq_or_ne t 1 with rfl | hne
    · exact htk
    · exact a1 ((key 1 (by norm_num) (Ne.symm hne)).symm.trans h)
  · rcases eq_or_ne t 2 with rfl | hne
    · exact htk
    · exact a2 ((key 2 (by norm_num) (Ne.symm hne)).symm.trans h)
  · rcases eq_or_ne t 3 with rfl | hne
    · exact htk
    · exact a3 ((key 3 (by norm_num) (Ne.symm hne)).symm.trans h)
  · rcases eq_or_ne t 4 with rfl | hne
    · exact htk
    · exact a4 ((key 4 (by norm_num) (Ne.symm hne)).symm.trans h)
  · rcases eq_or_ne t 5 with rfl | hne
    · exact htk
    · exact a5 ((key 5 (by norm_num) (Ne.symm hne)).symm.trans h)
  · rcases eq_or_ne t 6 with rfl | hne
    · exact htk
    · exact a6 ((key 6 (by norm_num) (Ne.symm hne)).symm.trans h)
  · rcases eq_or_ne t 7 with rfl | hne
    · exact htk
    · exact a7 ((key 7 (by norm_num) (Ne.symm hne)).symm.trans h)


theorem sub8_trans {a b c : Nat} (h1 : sub8 a b) (h2 : sub8 b c) : sub8 a c := by
  unfold sub8 at *
  obtain ⟨p0, p1, p2, p3, p4, p5, p6, p7⟩ := h1
  obtain ⟨q0, q1, q2, q3, q4, q5, q6, q7⟩ := h2
  exact ⟨fun h => q0 (p0 h), fun h => q1 (p1 h), fun h => q2 (p2 h), fun h => q3 (p3 h),
    fun h => q4 (p4 h), fun h => q5 (p5 h), fun h => q6 (p6 h), fun h => q7 (p7 h)⟩

theorem pow_of_killFirstBit {b : Nat} (hb : b < 64) (hb0 : b ≠ 0)
    (h : KillFirstBit b = 0) : ∃ k, k < 6 ∧ b = 2 ^ k := by
  unfold KillFirstBit FindFirstBit at h
  rw [if_neg hb0] at h
  split_ifs at h with h0 h1 h2 h3 h4 h5 h6 h7 <;>
    simp only [HasBit, beq_iff_eq, beq_eq_false_iff_ne] at * <;>
    first
    | exact ⟨0, by norm_num, by omega⟩
    | exact ⟨1, by norm_num, by omega⟩
    | exact ⟨2, by norm_num, by omega⟩
    | exact ⟨3, by norm_num, by omega⟩
    | exact ⟨4, by norm_num, by omega⟩
    | exact ⟨5, by norm_num, by omega⟩
    | omega

theorem overlap_false_cases {b : Nat} (hb : b < 64) (h : TracksOverlap b = false) :
    b = 0 ∨ (∃ k, k < 6 ∧ b = 2 ^ k) ∨ b = 12 ∨ b = 48 := by
  by_cases hb0 : b = 0
  · exact Or.inl hb0
  · simp only [TracksOverlap, TRACK_BIT_NONE, TRACK_BIT_HORZ, TRACK_BIT_VERT] at h
    split_ifs at h with hc
    · simp only [hb0, decide_False, Bool.false_or, decide_eq_true_eq] at hc
      exact Or.inr (Or.inl (pow_of_killFirstBit hb hb0 hc))
    · simp only [decide_eq_false_iff_not, not_and_or, not_not] at h
      rcases h with h | h
      · exact Or.inr (Or.inr (Or.inl h))
      · exact Or.inr (Or.inr (Or.inr h))

theorem sub8_12 {x : Nat} (h2 : HasBit x 2 = true) (h3 : HasBit x 3 = true) :
    sub8 12 x := by
  refine ⟨?_, ?_, ?_, ?_, ?_, ?_, ?_, ?_⟩ <;> intro hh
  · exact absurd hh (by decide)
  · exact absurd hh (by decide)
  · exact h2
  · exact h3
  · exact absurd hh (by decide)
  · exact absurd hh (by decide)
  · exact absurd hh (by decide)
  · exact absurd hh (by decide)

theorem sub8_48 {x : Nat} (h4 : HasBit x 4 = true) (h5 : HasBit x 5 = true) :
    sub8 48 x := by
  refine ⟨?_, ?_, ?_, ?_, ?_, ?_, ?_, ?_⟩ <;> intro hh
  · exact absurd hh (by decide)
  · exact absurd hh (by decide)
  · exact absurd hh (by decide)
  · exact absurd hh (by decide)
  · exact h4
  · exact h5
  · exact absurd hh (by decide)
  · exact absurd hh (by decide)

theorem sub8_60 {x : Nat} (h2 : HasBit x 2 = true) (h3 : HasBit x 3 = true)
    (h4 : HasBit x 4 = true) (h5 : HasBit x 5 = true) : sub8 60 x := by
  refine ⟨?_, ?_, ?_, ?_, ?_, ?_, ?_, ?_⟩ <;> intro hh
  · exact absurd hh (by decide)
  · exact absurd hh (by decide)
  · exact h2
  · exact h3
  · exact h4
  · exact h5
  · exact absurd hh (by decide)
  · exact absurd hh (by decide)

theorem sentinel_sub {x : Nat}
    (h : (HasBit x 2 = true ∧ HasBit x 3 = true) ∨ (HasBit x 4 = true ∧ HasBit x 5 = true)) :
    sub8 (metroSentinelDecode x) x := by
  simp only [metroSentinelDecode, TRACK_LEFT, TRACK_RIGHT, TRACK_UPPER, TRACK_LOWER,
    TRACK_BIT_HORZ, TRACK_BIT_VERT]
  split_ifs with h1 h2
  · show sub8 60 x
    exact sub8_60 h2.1 h2.2 h1.1 h1.2
  · exact sub8_48 h1.1 h1.2
  · have h23 : HasBit x 2 = true ∧ HasBit x 3 = true := by tauto
    exact sub8_12 h23.1 h23.2


theorem getTracks_unsig {w : Nat} (h15 : InnerMetroHasSignals w = false) :
    GetMetroTrackBits w = GB w 0 6 := by
  simp [GetMetroTrackBits, h15]

theorem getTracks_sig_single {w : Nat} (h15 : InnerMetroHasSignals w = true)
    (h14 : InnerMetroHasDoubleTrack w = false) :
    GetMetroTrackBits w = 2 ^ GetMetroTrack w := by
  simp [GetMetroTrackBits, h15, h14, TrackToTrackBits]

theorem getTracks_sig_dbl {w : Nat} (h15 : InnerMetroHasSignals w = true)
    (h14 : InnerMetroHasDoubleTrack w = true) :
    GetMetroTrackBits w = if GetMetroDoubleTrackDirection w then 48 else 12 := by
  cases hdir : GetMetroDoubleTrackDirection w <;>
    simp [GetMetroTrackBits, h15, h14, hdir, TRACK_BIT_HORZ, TRACK_BIT_VERT]

theorem gb122_setRes_sig {w b : Nat} (h15 : InnerMetroHasSignals w = true) :
    GB (SetMetroTrackReservation w b) 12 2 = GB w 12 2 := by
  simp only [SetMetroTrackReservation, h15, if_true]
  split_ifs <;> simp

theorem b_lt64_of_sub {b x : Nat} (hbyte : b < 256) (hx : x < 64)
    (hsub : sub8 b x) : b < 64 := by
  obtain ⟨_, _, _, _, _, _, a6, a7⟩ := hsub
  have h6 : HasBit b 6 = false := by
    cases hb : HasBit b 6
    · rfl
    · exact absurd (hasBit_lt (show x < 2 ^ 6 by omega) (a6 hb)) (by omega)
  have h7 : HasBit b 7 = false := by
    cases hb : HasBit b 7
    · rfl
    · exact absurd (hasBit_lt (show x < 2 ^ 6 by omega) (a7 hb)) (by omega)
  simp only [HasBit, beq_eq_false_iff_ne] at h6 h7
  omega

theorem sub8_pow_cases {b k : Nat} (hbyte : b < 256) (hk : k < 8)
    (hsub : sub8 b (2 ^ k)) : b = 0 ∨ b = 2 ^ k := by
  obtain ⟨a0, a1, a2, a3, a4, a5, a6, a7⟩ := hsub
  have key : ∀ i, i < 8 → i ≠ k → HasBit b i = false := by
    intro i hi hne
    cases hb : HasBit b i
    · rfl
    · exfalso
      have h2 : HasBit (2 ^ k) i = true := by
        interval_cases i <;>
          first
          | exact a0 hb | exact a1 hb | exact a2 hb | exact a3 hb
          | exact a4 hb | exact a5 hb | exact a6 hb | exact a7 hb
      exact hne (hasBit_two_pow.1 h2)
  have keys : ∀ i, i < 8 → i ≠ k → b / 2 ^ i % 2 = 0 := by
    intro i hi hne
    have := key i hi hne
    simp only [HasBit, beq_eq_false_iff_ne] at this
    omega
  interval_cases k <;>
    (have k0 := keys 0; have k1 := keys 1; have k2 := keys 2; have k3 := keys 3
     have k4 := keys 4; have k5 := keys 5; have k6 := keys 6; have k7 := keys 7
     simp only [] at k0 k1 k2 k3 k4 k5 k6 k7
     omega)

theorem sub8_bundle12_cases {b : Nat} (hbyte : b < 256) (hsub : sub8 b 12) :
    b = 0 ∨ b = 4 ∨ b = 8 ∨ b = 12 := by
  obtain ⟨a0, a1, a2, a3, a4, a5, a6, a7⟩ := hsub
  have k0 : HasBit b 0 = false := by
    cases hb : HasBit b 0; rfl; exact absurd (a0 hb) (by decide)
  have k1 : HasBit b 1 = false := by
    cases hb : HasBit b 1; rfl; exact absurd (a1 hb) (by decide)
  have k4 : HasBit b 4 = false := by
    cases hb : HasBit b 4; rfl; exact absurd (a4 hb) (by decide)
  have k5 : HasBit b 5 = false := by
    cases hb : HasBit b 5; rfl; exact absurd (a5 hb) (by decide)
  have k6 : HasBit b 6 = false := by
    cases hb : HasBit b 6; rfl; exact absurd (a6 hb) (by decide)
  have k7 : HasBit b 7 = false := by
    cases hb : HasBit b 7; rfl; exact absurd (a7 hb) (by decide)
  simp only [HasBit, beq_eq_false_iff_ne] at k0 k1 k4 k5 k6 k7
  omega

theorem sub8_bundle48_cases {b : Nat} (hbyte : b < 256) (hsub : sub8 b 48) :
    b = 0 ∨ b = 16 ∨ b = 32 ∨ b = 48 := by
  obtain ⟨a0, a1, a2, a3, a4, a5, a6, a7⟩ := hsub
  have k0 : HasBit b 0 = false := by
    cases hb : HasBit b 0; rfl; exact absurd (a0 hb) (by decide)
  have k1 : HasBit b 1 = false := by
    cases hb : HasBit b 1; rfl; exact absurd (a1 hb) (by decide)
  have k2 : HasBit b 2 = false := by
    cases hb : HasBit b 2; rfl; exact absurd (a2 hb) (by decide)
  have k3 : HasBit b 3 = false := by
    cases hb : HasBit b 3; rfl; exact absurd (a3 hb) (by decide)
  have k6 : HasBit b 6 = false := by
    cases hb : HasBit b 6; rfl; exact absurd (a6 hb) (by decide)
  have k7 : HasBit b 7 = false := by
    cases hb : HasBit b 7; rfl; exact absurd (a7 hb) (by decide)
  simp only [HasBit, beq_eq_false_iff_ne] at k0 k1 k2 k3 k6 k7
  omega


theorem resinv_setRes {w b : Nat} (hinv : ResInv w) (hbyte : b < 256)
    (hov : TracksOverlap b = false) (hsub : sub8 b (GetMetroTrackBits w)) :
    ResInv (SetMetroTrackReservation w b) := by
  obtain ⟨hs, hj⟩ := hinv
  constructor
  case right =>
    intro hsig
    rw [sig_setRes] at hsig
    rw [gb122_setRes_sig hsig]
    exact hj hsig
  case left =>
    by_cases h15 : InnerMetroHasSignals w = true
    · by_cases h14 : InnerMetroHasDoubleTrack w = true
      · -- signaled double track
        cases hdir : GetMetroDoubleTrackDirection w
        · have e : GetMetroTrackBits w = 12 := by rw [getTracks_sig_dbl h15 h14, hdir]; rfl
          rw [e] at hsub
          rcases sub8_bundle12_cases hbyte hsub with rfl | rfl | rfl | rfl <;>
            rw [getRes_setRes_sig_dbl_horz w _ h15 h14 hdir (by norm_num),
              tracks_setRes, e] <;>
            cases c5 : HasBit w 5 <;> norm_num <;> decide
        · have e : GetMetroTrackBits w = 48 := by rw [getTracks_sig_dbl h15 h14, hdir]; rfl
          rw [e] at hsub
          rcases sub8_bundle48_cases hbyte hsub with rfl | rfl | rfl | rfl <;>
            rw [getRes_setRes_sig_dbl_vert w _ h15 h14 hdir (by norm_num),
              tracks_setRes, e] <;>
            cases c5 : HasBit w 5 <;> norm_num <;> decide
      · -- signaled single track
        have h14f : InnerMetroHasDoubleTrack w = false := by simpa using h14
        have e : GetMetroTrackBits w = 2 ^ GetMetroTrack w := getTracks_sig_single h15 h14f
        have htk : GetMetroTrack w < 8 := by unfold GetMetroTrack GB; omega
        rw [e] at hsub
        rcases sub8_pow_cases hbyte htk hsub with rfl | rfl
        · have hj3 : GB w 12 3 = 0 := by
            have h2 := hj h15
            have h14b : HasBit w 14 = false := by
              simpa [InnerMetroHasDoubleTrack] using h14f
            rw [gb123_split, h14b, h2]
            rfl
          rw [getRes_setRes_sig_single_zero w h15 h14f hj3]
          exact sub8_zero _
        · rw [getRes_setRes_sig_single_pos w _ h15 h14f (by positivity),
            tracks_setRes, e]
          exact sub8_refl_like (by rw [TrackToTrackBits])
    · -- unsignaled
      have h15f : InnerMetroHasSignals w = false := by simpa using h15
      have htlt : GetMetroTrackBits w < 64 := getTrackBits_unsig_lt w h15f
      have hb64 : b < 64 := b_lt64_of_sub hbyte htlt hsub
      rcases overlap_false_cases hb64 hov with rfl | ⟨k, hk, rfl⟩ | rfl | rfl
      · rw [getRes_setRes_unsig_zero w h15f]
        exact sub8_zero _
      · rw [getRes_setRes_unsig_single w k h15f hk, tracks_setRes]
        exact hsub
      · rw [getRes_setRes_unsig_multi w 12 h15f (by norm_num), tracks_setRes,
          getTracks_unsig h15f]
        apply sentinel_sub
        left
        obtain ⟨_, _, a2, a3, _, _, _, _⟩ := hsub
        rw [getTracks_unsig h15f] at a2 a3
        exact ⟨a2 (by decide), a3 (by decide)⟩
      · rw [getRes_setRes_unsig_multi w 48 h15f (by norm_num), tracks_setRes,
          getTracks_unsig h15f]
        apply sentinel_sub
        right
        obtain ⟨_, _, _, _, a4, a5, _, _⟩ := hsub
        rw [getTracks_unsig h15f] at a4 a5
        exact ⟨a4 (by decide), a5 (by decide)⟩





theorem add_pow_lt_256 {res t : Nat} (ht : t < 8) (hres : res < 256)
    (hclear : HasBit res t = false) : res + 2 ^ t < 256 := by
  simp only [HasBit, beq_eq_false_iff_ne] at hclear
  interval_cases t <;> omega

theorem tracks_lt_256 (w : Nat) : GetMetroTrackBits w < 256 := by
  by_cases h15 : InnerMetroHasSignals w = true
  · by_cases h14 : InnerMetroHasDoubleTrack w = true
    · rw [getTracks_sig_dbl h15 h14]
      split_ifs <;> norm_num
    · rw [getTracks_sig_single h15 (by simpa using h14)]
      have h : GetMetroTrack w < 8 := by unfold GetMetroTrack GB; omega
      calc 2 ^ GetMetroTrack w ≤ 2 ^ 7 := Nat.pow_le_pow_right (by norm_num) (by omega)
        _ < 256 := by norm_num
  · have := getTrackBits_unsig_lt w (by simpa using h15)
    omega

theorem resinv_try {w t : Nat} (hinv : ResInv w) (ht : HasMetroTrack w t = true) :
    ResInv (TryMetroReserveTrack w t).2 := by
  have ht' : HasBit (GetMetroTrackBits w) t = true := ht
  have ht8 : t < 8 := hasBit_lt (show GetMetroTrackBits w < 2 ^ 8 from tracks_lt_256 w) ht'
  simp only [TryMetroReserveTrack, TrackToTrackBits]
  split_ifs with h1 h2
  · exact hinv
  · exact hinv
  · show ResInv (SetMetroTrackReservation w (GetMetroRailReservationTrackBits w + 2 ^ t))
    have h1f : HasBit (GetMetroRailReservationTrackBits w) t = false := by simpa using h1
    have h2f : TracksOverlap (GetMetroRailReservationTrackBits w + 2 ^ t) = false := by
      simpa using h2
    exact resinv_setRes hinv (add_pow_lt_256 ht8 (getRes_lt w) h1f) h2f
      (sub8_add_pow ht8 (getRes_lt w) hinv.1 ht' h1f)

theorem sub8_sub_pow {res t : Nat} (ht8 : t < 8) (hres : res < 256)
    (hset : HasBit res t = true) : sub8 (res - 2 ^ t) res := by
  unfold sub8
  simp only [HasBit, beq_iff_eq] at hset ⊢
  have key : ∀ i, i < 8 → i ≠ t → (res - 2 ^ t) / 2 ^ i % 2 = res / 2 ^ i % 2 := by
    intro i hi hne
    interval_cases t <;> interval_cases i <;> omega
  have keyt : (res - 2 ^ t) / 2 ^ t % 2 = 0 := by
    interval_cases t <;> omega
  refine ⟨?_, ?_, ?_, ?_, ?_, ?_, ?_, ?_⟩ <;> intro h
  · rcases eq_or_ne t 0 with rfl | hne
    · exact absurd (h.symm.trans keyt) (by norm_num)
    · exact (key 0 (by norm_num) (Ne.symm hne)).symm.trans h
  · rcases eq_or_ne t 1 with rfl | hne
    · exact absurd (h.symm.trans keyt) (by norm_num)
    · exact (key 1 (by norm_num) (Ne.symm hne)).symm.trans h
  · rcases eq_or_ne t 2 with rfl | hne
    · exact absurd (h.symm.trans keyt) (by norm_num)
    · exact (key 2 (by norm_num) (Ne.symm hne)).symm.trans h
  · rcases eq_or_ne t 3 with rfl | hne
    · exact absurd (h.symm.trans keyt) (by norm_num)
    · exact (key 3 (by norm_num) (Ne.symm hne)).symm.trans h
  · rcases eq_or_ne t 4 with rfl | hne
    · exact absurd (h.symm.trans keyt) (by norm_num)
    · exact (key 4 (by norm_num) (Ne.symm hne)).symm.trans h
  · rcases eq_or_ne t 5 with rfl | hne
    · exact absurd (h.symm.trans keyt) (by norm_num)
    · exact (key 5 (by norm_num) (Ne.symm hne)).symm.trans h
  · rcases eq_or_ne t 6 with rfl | hne
    · exact absurd (h.symm.trans keyt) (by norm_num)
    · exact (key 6 (by norm_num) (Ne.symm hne)).symm.trans h
  · rcases eq_or_ne t 7 with rfl | hne
    · exact absurd (h.symm.trans keyt) (by norm_num)
    · exact (key 7 (by norm_num) (Ne.symm hne)).symm.trans h

theorem unres_b_unsig {res t b : Nat}
    (hmem : res = 0 ∨ (∃ j, j < 6 ∧ res = 2 ^ j) ∨ res = 12 ∨ res = 48 ∨ res = 60)
    (hb : b = if HasBit res t then res - TrackToTrackBits t else res) :
    b = 0 ∨ (∃ j, j < 6 ∧ b = 2 ^ j) ∨ b = 12 ∨ b = 48 ∨ b = 60 ∨
      b = 56 ∨ b = 52 ∨ b = 44 ∨ b = 28 := by
  subst hb
  cases hbt : HasBit res t
  · rw [if_neg (by simp)]
    rcases hmem with rfl | ⟨j, hj, rfl⟩ | rfl | rfl | rfl
    · norm_num
    · exact Or.inr (Or.inl ⟨j, hj, rfl⟩)
    · norm_num
    · norm_num
    · norm_num
  · rw [if_pos rfl]
    simp only [TrackToTrackBits]
    have ht6 : t < 6 := by
      refine hasBit_lt (show res < 2 ^ 6 from ?_) hbt
      rcases hmem with rfl | ⟨j, hj, rfl⟩ | rfl | rfl | rfl
      · norm_num
      · have : 2 ^ j ≤ 2 ^ 5 := Nat.pow_le_pow_right (by norm_num) (by omega)
        omega
      · norm_num
      · norm_num
      · norm_num
    rcases hmem with rfl | ⟨j, hj, rfl⟩ | rfl | rfl | rfl
    · exact absurd hbt (by simp [HasBit])
    · have htj : t = j := hasBit_two_pow.mp hbt
      subst htj
      left
      omega
    · interval_cases t
      · exact absurd hbt (by decide)
      · exact absurd hbt (by decide)
      · exact Or.inr (Or.inl ⟨3, by norm_num, by norm_num⟩)
      · exact Or.inr (Or.inl ⟨2, by norm_num, by norm_num⟩)
      · exact absurd hbt (by decide)
      · exact absurd hbt (by decide)
    · interval_cases t
      · exact absurd hbt (by decide)
      · exact absurd hbt (by decide)
      · exact absurd hbt (by decide)
      · exact absurd hbt (by decide)
      · exact Or.inr (Or.inl ⟨5, by norm_num, by norm_num⟩)
      · exact Or.inr (Or.inl ⟨4, by norm_num, by norm_num⟩)
    · interval_cases t
      · exact absurd hbt (by decide)
      · exact absurd hbt (by decide)
      · exact Or.inr (Or.inr (Or.inr (Or.inr (Or.inr (Or.inl (by norm_num))))))
      · exact Or.inr (Or.inr (Or.inr (Or.inr (Or.inr (Or.inr (Or.inl (by norm_num)))))))
      · exact Or.inr (Or.inr (Or.inr (Or.inr (Or.inr
          (Or.inr (Or.inr (Or.inl (by norm_num))))))))
      · exact Or.inr (Or.inr (Or.inr (Or.inr (Or.inr
          (Or.inr (Or.inr (Or.inr (by norm_num))))))))

theorem resinv_unres_aux {w t b : Nat} (hinv : ResInv w)
    (hb : b = if HasBit (GetMetroRailReservationTrackBits w) t
        then GetMetroRailReservationTrackBits w - TrackToTrackBits t
        else GetMetroRailReservationTrackBits w) :
    ResInv (SetMetroTrackReservation w b) := by
  obtain ⟨hs, hj⟩ := hinv
  have hg := getRes_lt w
  have hblt : b < 256 := by
    rw [hb]
    split_ifs <;> omega
  have hsub : sub8 b (GetMetroTrackBits w) := by
    rw [hb]
    cases hbt : HasBit (GetMetroRailReservationTrackBits w) t
    · rw [if_neg (by simp)]
      exact hs
    · rw [if_pos rfl]
      have ht8 : t < 8 :=
        hasBit_lt (show GetMetroRailReservationTrackBits w < 2 ^ 8 from hg) hbt
      simp only [TrackToTrackBits]
      exact sub8_trans (sub8_sub_pow ht8 hg hbt) hs
  constructor
  case right =>
    intro hsig
    rw [sig_setRes] at hsig
    rw [gb122_setRes_sig hsig]
    exact hj hsig
  case left =>
    by_cases h15 : InnerMetroHasSignals w = true
    · by_cases h14 : InnerMetroHasDoubleTrack w = true
      · cases hdir : GetMetroDoubleTrackDirection w
        · have hsub12 : sub8 b 12 := by
            rw [getTracks_sig_dbl h15 h14, hdir] at hsub
            simpa using hsub
          rcases sub8_bundle12_cases hblt hsub12 with rfl | rfl | rfl | rfl <;>
            rw [getRes_setRes_sig_dbl_horz w _ h15 h14 hdir (by norm_num),
              tracks_setRes, getTracks_sig_dbl h15 h14, hdir] <;>
            cases c5 : HasBit w 5 <;> norm_num <;> decide
        · have hsub48 : sub8 b 48 := by
            rw [getTracks_sig_dbl h15 h14, hdir] at hsub
            simpa using hsub
          rcases sub8_bundle48_cases hblt hsub48 with rfl | rfl | rfl | rfl <;>
            rw [getRes_setRes_sig_dbl_vert w _ h15 h14 hdir (by norm_num),
              tracks_setRes, getTracks_sig_dbl h15 h14, hdir] <;>
            cases c5 : HasBit w 5 <;> norm_num <;> decide
      · have h14f : InnerMetroHasDoubleTrack w = false := by simpa using h14
        by_cases hb0 : b = 0
        · subst hb0
          have hj3 : GB w 12 3 = 0 := by
            have h2 := hj h15
            have h14b : HasBit w 14 = false := by
              simpa [InnerMetroHasDoubleTrack] using h14f
            rw [gb123_split, h14b, h2]
            rfl
          rw [getRes_setRes_sig_single_zero w h15 h14f hj3]
          exact sub8_zero _
        · rw [getRes_setRes_sig_single_pos w b h15 h14f hb0, tracks_setRes,
            getTracks_sig_single h15 h14f]
          exact sub8_refl_like (by rw [TrackToTrackBits])
    · have h15f : InnerMetroHasSignals w = false := by simpa using h15
      have hresmem : GetMetroRailReservationTrackBits w = 0 ∨
          (∃ j, j < 6 ∧ GetMetroRailReservationTrackBits w = 2 ^ j) ∨
          GetMetroRailReservationTrackBits w = 12 ∨
          GetMetroRailReservationTrackBits w = 48 ∨
          GetMetroRailReservationTrackBits w = 60 := by
        rw [getRes_unsig w h15f]
        exact metroReservationFieldDecode_cases w
      have hbmem := unres_b_unsig hresmem hb
      rcases hbmem with rfl | ⟨j, hj6, rfl⟩ | rfl | rfl | rfl | rfl | rfl | rfl | rfl
      · rw [getRes_setRes_unsig_zero w h15f]
        exact sub8_zero _
      · rw [getRes_setRes_unsig_single w j h15f hj6, tracks_setRes]
        exact hsub
      · rw [getRes_setRes_unsig_multi w 12 h15f (by norm_num), tracks_setRes,
          getTracks_unsig h15f]
        apply sentinel_sub
        left
        obtain ⟨_, _, a2, a3, _, _, _, _⟩ := hsub
        rw [getTracks_unsig h15f] at a2 a3
        exact ⟨a2 (by decide), a3 (by decide)⟩
      · rw [getRes_setRes_unsig_multi w 48 h15f (by norm_num), tracks_setRes,
          getTracks_unsig h15f]
        apply sentinel_sub
        right
        obtain ⟨_, _, _, _, a4, a5, _, _⟩ := hsub
        rw [getTracks_unsig h15f] at a4 a5
        exact ⟨a4 (by decide), a5 (by decide)⟩
      · rw [getRes_setRes_unsig_multi w 60 h15f (by norm_num), tracks_setRes,
          getTracks_unsig h15f]
        apply sentinel_sub
        left
        obtain ⟨_, _, a2, a3, _, _, _, _⟩ := hsub
        rw [getTracks_unsig h15f] at a2 a3
        exact ⟨a2 (by decide), a3 (by decide)⟩
      · rw [getRes_setRes_unsig_multi w 56 h15f (by norm_num), tracks_setRes,
          getTracks_unsig h15f]
        apply sentinel_sub
        right
        obtain ⟨_, _, _, _, a4, a5, _, _⟩ := hsub
        rw [getTracks_unsig h15f] at a4 a5
        exact ⟨a4 (by decide), a5 (by decide)⟩
      · rw [getRes_setRes_unsig_multi w 52 h15f (by norm_num), tracks_setRes,
          getTracks_unsig h15f]
        apply sentinel_sub
        right
        obtain ⟨_, _, _, _, a4, a5, _, _⟩ := hsub
        rw [getTracks_unsig h15f] at a4 a5
        exact ⟨a4 (by decide), a5 (by decide)⟩
      · rw [getRes_setRes_unsig_multi w 44 h15f (by norm_num), tracks_setRes,
          getTracks_unsig h15f]
        apply sentinel_sub
        left
        obtain ⟨_, _, a2, a3, _, _, _, _⟩ := hsub
        rw [getTracks_unsig h15f] at a2 a3
        exact ⟨a2 (by decide), a3 (by decide)⟩
      · rw [getRes_setRes_unsig_multi w 28 h15f (by norm_num), tracks_setRes,
          getTracks_unsig h15f]
        apply sentinel_sub
        left
        obtain ⟨_, _, a2, a3, _, _, _, _⟩ := hsub
        rw [getTracks_unsig h15f] at a2 a3
        exact ⟨a2 (by decide), a3 (by decide)⟩

theorem resinv_unres {w t : Nat} (hinv : ResInv w) :
    ResInv (UnreserveMetroTrack w t) := by
  simp only [UnreserveMetroTrack]
  exact resinv_unres_aux hinv rfl

theorem decode_eq_zero {w : Nat} (h : metroReservationFieldDecode w = 0) :
    GB w 12 3 = 0 := by
  by_contra hc
  simp only [metroReservationFieldDecode, TRACK_BIT_NONE, TRACK_RESERVATION_BOTH,
    TrackToTrackBits] at h
  split_ifs at h with h1
  · rcases metroSentinelDecode_cases (GB w 0 6) with he | he | he <;> rw [he] at h <;>
      norm_num at h
  · have := Nat.pos_pow_of_pos (GB w 12 3 - 1) (show 0 < 2 by norm_num)
    omega

theorem resinv_after_unsig_zero {w2 : Nat} (h15 : InnerMetroHasSignals w2 = false) :
    ResInv (SetMetroTrackReservation w2 0) := by
  constructor
  · rw [getRes_setRes_unsig_zero w2 h15]
    exact sub8_zero _
  · intro hsig
    rw [sig_setRes, h15] at hsig
    simp at hsig

theorem resinv_sig_single_general {w2 : Nat} (h15 : InnerMetroHasSignals w2 = true)
    (h14 : InnerMetroHasDoubleTrack w2 = false) (hj : GB w2 12 2 = 0) : ResInv w2 := by
  constructor
  · cases c2 : HasBit w2 2
    · have h3 : GB w2 12 3 = 0 := by
        have h14b : HasBit w2 14 = false := by simpa [InnerMetroHasDoubleTrack] using h14
        rw [gb123_split, h14b, hj]
        rfl
      have hd : metroReservationFieldDecode w2 = 0 := by
        simp [metroReservationFieldDecode, h3, TRACK_BIT_NONE]
      rw [getRes_sig_single w2 h15 h14, c2]
      simp only [Bool.false_eq_true, if_false, hd]
      exact sub8_zero _
    · rw [getRes_sig_single w2 h15 h14, c2, getTracks_sig_single h15 h14]
      simp only [if_true]
      exact sub8_refl_like (by rw [TrackToTrackBits])
  · intro _
    exact hj

theorem resinv_sig_dbl_general {w2 : Nat} (h15 : InnerMetroHasSignals w2 = true)
    (h14 : InnerMetroHasDoubleTrack w2 = true) (hj : GB w2 12 2 = 0) : ResInv w2 := by
  constructor
  · rw [getTracks_sig_dbl h15 h14, getRes_sig_dbl w2 h15 h14]
    cases hdir : GetMetroDoubleTrackDirection w2 <;>
      cases c2 : HasBit w2 2 <;> cases c5 : HasBit w2 5 <;> norm_num <;> decide
  · intro _
    exact hj

theorem resinv_setTrackBits {w b : Nat} (hinv : ResInv w) (hb : b < 64)
    (hres : GetMetroRailReservationTrackBits w = 0)
    (hsig : InnerMetroHasSignals w = true → SignaledTrackBitsValue b) :
    ResInv (SetMetroTrackBits w b) := by
  by_cases h15 : InnerMetroHasSignals w = true
  · have hj0 : GB w 12 2 = 0 := hinv.2 h15
    rcases hsig h15 with rfl | rfl | rfl | rfl | rfl | rfl | rfl | rfl <;>
      simp only [SetMetroTrackBits, h15, if_true, TRACK_BIT_X, TRACK_BIT_Y,
        TRACK_BIT_UPPER, TRACK_BIT_LOWER, TRACK_BIT_LEFT, TRACK_BIT_RIGHT,
        TRACK_BIT_HORZ, TRACK_BIT_VERT] <;>
      norm_num
    · refine resinv_sig_single_general ?_ ?_ ?_ <;> simp [h15, hj0]
    · refine resinv_sig_single_general ?_ ?_ ?_ <;> simp [h15, hj0]
    · refine resinv_sig_single_general ?_ ?_ ?_ <;> simp [h15, hj0]
    · refine resinv_sig_single_general ?_ ?_ ?_ <;> simp [h15, hj0]
    · refine resinv_sig_single_general ?_ ?_ ?_ <;> simp [h15, hj0]
    · refine resinv_sig_single_general ?_ ?_ ?_ <;> simp [h15, hj0]
    · refine resinv_sig_dbl_general ?_ ?_ ?_ <;> simp [h15, hj0]
    · refine resinv_sig_dbl_general ?_ ?_ ?_ <;> simp [h15, hj0]
  · have h15f : InnerMetroHasSignals w = false := by simpa using h15
    have h3 : GB w 12 3 = 0 := decode_eq_zero (by rw [← getRes_unsig w h15f]; exact hres)
    simp only [SetMetroTrackBits, h15f, Bool.false_eq_true, if_false]
    constructor
    · have h15' : InnerMetroHasSignals (SB w 0 6 b) = false := by simp [h15f]
      rw [getRes_unsig _ h15']
      have hd : metroReservationFieldDecode (SB w 0 6 b) = 0 := by
        simp [metroReservationFieldDecode, h3, TRACK_BIT_NONE]
      rw [hd]
      exact sub8_zero _
    · intro hx
      rw [show InnerMetroHasSignals (SB w 0 6 b) = false by simp [h15f]] at hx
      simp at hx

theorem resinv_setSignals {w : Nat} (s : Bool) (hinv : ResInv w)
    (hres : GetMetroRailReservationTrackBits w = 0) :
    ResInv (SetMetroHasSignals w s) := by
  have hj0 : GB w 12 2 = 0 := by
    by_cases h15 : InnerMetroHasSignals w = true
    · exact hinv.2 h15
    · have h15f : InnerMetroHasSignals w = false := by simpa using h15
      have h3 : GB w 12 3 = 0 :=
        decode_eq_zero (by rw [← getRes_unsig w h15f]; exact hres)
      unfold GB at h3 ⊢
      omega
  simp only [SetMetroHasSignals, hres]
  cases s
  · have h15w1 : InnerMetroHasSignals (InnerSetMetroHasSignals w false) = false := by simp
    simp only [SetMetroTrackBits, h15w1, Bool.false_eq_true, if_false]
    apply resinv_after_unsig_zero
    simp
  · have h15w1 : InnerMetroHasSignals (InnerSetMetroHasSignals w true) = true := by simp
    simp only [SetMetroTrackBits, h15w1, if_true]
    split_ifs
    · refine resinv_setRes (resinv_sig_single_general ?_ ?_ ?_)
        (by norm_num) (by decide) (sub8_zero _) <;> simp [hj0]
    · refine resinv_setRes (resinv_sig_single_general ?_ ?_ ?_)
        (by norm_num) (by decide) (sub8_zero _) <;> simp [hj0]
    · refine resinv_setRes (resinv_sig_single_general ?_ ?_ ?_)
        (by norm_num) (by decide) (sub8_zero _) <;> simp [hj0]
    · refine resinv_setRes (resinv_sig_single_general ?_ ?_ ?_)
        (by norm_num) (by decide) (sub8_zero _) <;> simp [hj0]
    · refine resinv_setRes (resinv_sig_single_general ?_ ?_ ?_)
        (by norm_num) (by decide) (sub8_zero _) <;> simp [hj0]
    · refine resinv_setRes (resinv_sig_single_general ?_ ?_ ?_)
        (by norm_num) (by decide) (sub8_zero _) <;> simp [hj0]
    · refine resinv_setRes (resinv_sig_dbl_general ?_ ?_ ?_)
        (by norm_num) (by decide) (sub8_zero _) <;> simp [hj0]
    · refine resinv_setRes (resinv_sig_dbl_general ?_ ?_ ?_)
        (by norm_num) (by decide) (sub8_zero _) <;> simp [hj0]
    · apply resinv_after_unsig_zero
      simp

theorem resinv_safe {w : Nat} (h : MetroReachableSafe w) : ResInv w := by
  induction h with
  | init => exact ⟨by decide, by decide⟩
  | setTrackBits w b hb hres hsig h ih => exact resinv_setTrackBits ih hb hres hsig
  | setHasSignals w s hres h ih => exact resinv_setSignals s ih hres
  | tryReserve w t ht h ih => exact resinv_try ih ht
  | unreserve w t ht h ih => exact resinv_unres ih
  | setReservation w b hbyte hov hsub h ih => exact resinv_setRes ih hbyte hov hsub

/-- C2 (amended): for every state reachable from the all-zero word by the
metro operations with topology and mode mutations taken only while the
reservation is empty, and signaled tiles receiving only the eight
signaled topology values, the decoded reservation is a subset of the
decoded topology. -/
theorem c2_reservation_subset_amended {w : Nat} (h : MetroReachableSafe w) :
    sub8 (GetMetroRailReservationTrackBits w) (GetMetroTrackBits w) :=
  (resinv_safe h).1

theorem c2_reservation_subset_amended_witness :
    sub8 (GetMetroRailReservationTrackBits 2) (GetMetroTrackBits 2) := by
  have h1 : MetroReachableSafe (SetMetroTrackBits 0 2) :=
    MetroReachableSafe.setTrackBits 0 2 (by norm_num) (by decide) (by decide)
      MetroReachableSafe.init
  rw [show SetMetroTrackBits 0 2 = 2 from by decide] at h1
  exact c2_reservation_subset_amended h1

/-- C2 (counterexample to the original claim): the word 8193 is reachable
under the operations' stated preconditions alone, yet its decoded
reservation (TRACK_BIT_Y) is not a subset of its decoded topology
(TRACK_BIT_X). -/
theorem c2_reservation_subset_counterexample :
    MetroReachable 8193 ∧
      ¬ sub8 (GetMetroRailReservationTrackBits 8193) (GetMetroTrackBits 8193) := by
  constructor
  · have h1 : MetroReachable (SetMetroTrackBits 0 2) :=
      MetroReachable.setTrackBits 0 2 (by norm_num) MetroReachable.init
    rw [show SetMetroTrackBits 0 2 = 2 from by decide] at h1
    have h2 : MetroReachable (SetMetroTrackReservation 2 2) :=
      MetroReachable.setReservation 2 2 (by norm_num) (by decide) (by decide) h1
    rw [show SetMetroTrackReservation 2 2 = 8194 from by decide] at h2
    have h3 : MetroReachable (SetMetroTrackBits 8194 1) :=
      MetroReachable.setTrackBits 8194 1 (by norm_num) h2
    rw [show SetMetroTrackBits 8194 1 = 8193 from by decide] at h3
    exact h3
  · decide

/-- C3: in any sequence of TryMetroReserveTrack calls on one tile with no
interleaved unreserve, at most one call on a given present track returns
true. -/
theorem c3_try_reserve_exclusive (w tr : Nat) (ts : List Nat)
    (htr : HasMetroTrack w tr = true) (hall : ∀ t ∈ ts, HasMetroTrack w t = true) :
    ((runTryList w ts).1.countP (fun p => p.1 == tr && p.2)) ≤ 1 :=
  count_le_one ts w tr htr hall

theorem c3_try_reserve_exclusive_witness :
    ((runTryList 2 [1, 1]).1.countP (fun p => p.1 == 1 && p.2)) ≤ 1 :=
  c3_try_reserve_exclusive 2 1 [1, 1] (by decide) (by decide)

/-- C1: for every m8 word and every topology supported by the word's
current mode (one of the eight signaled values in signaled mode, any
6-bit bitset in unsignaled mode), SetMetroTrackBits followed by
GetMetroTrackBits returns exactly that topology. -/
theorem c1_topology_roundtrip (w b : Nat)
    (h : if InnerMetroHasSignals w = true then SignaledTrackBitsValue b else b < 64) :
    GetMetroTrackBits (SetMetroTrackBits w b) = b := by
  by_cases h15 : InnerMetroHasSignals w = true
  · rw [if_pos h15] at h
    rcases h with rfl | rfl | rfl | rfl | rfl | rfl | rfl | rfl <;>
      simp only [SetMetroTrackBits, h15, if_true, TRACK_BIT_X, TRACK_BIT_Y,
        TRACK_BIT_UPPER, TRACK_BIT_LOWER, TRACK_BIT_LEFT, TRACK_BIT_RIGHT,
        TRACK_BIT_HORZ, TRACK_BIT_VERT] <;>
      norm_num <;>
      simp [GetMetroTrackBits, h15, TrackToTrackBits, TRACK_BIT_HORZ, TRACK_BIT_VERT,
        TRACK_X, TRACK_Y, TRACK_UPPER, TRACK_LOWER, TRACK_LEFT, TRACK_RIGHT]
  · rw [if_neg h15] at h
    have h15f : InnerMetroHasSignals w = false := by simpa using h15
    simp only [SetMetroTrackBits, h15f, Bool.false_eq_true, if_false]
    rw [getTracks_unsig (by simp [h15f])]
    simp [Nat.mod_eq_of_lt h]

theorem c1_topology_roundtrip_witness :
    (if InnerMetroHasSignals 0 = true then SignaledTrackBitsValue 5 else 5 < 64) ∧
      GetMetroTrackBits (SetMetroTrackBits 0 5) = 5 :=
  ⟨by decide, c1_topology_roundtrip 0 5 (by decide)⟩

/-- C4 (amended): TryMetroReserveTrack returns false and leaves the tile
unchanged exactly when the track is already reserved or adding it yields
an overlapping set; otherwise it returns true and stores the enlarged
set through SetMetroTrackReservation (whose stored encoding may decode
to a different set). -/
theorem c4_try_reserve_amended (t : Tile) (tr : Nat) :
    TryMetroReserveTrackOnTile t tr =
      if ReserveBlocked t.m8 tr then (false, t)
      else (true, { t with m8 := (SetMetroTrackReservation t.m8
          (GetMetroRailReservationTrackBits t.m8 + TrackToTrackBits tr)) }) := by
  by_cases hd : ReserveBlocked t.m8 tr
  · rw [if_pos hd]
    by_cases hb : HasBit (GetMetroRailReservationTrackBits t.m8) tr = true
    · simp [TryMetroReserveTrackOnTile, TryMetroReserveTrack, hb]
    · have hov : TracksOverlap
          (GetMetroRailReservationTrackBits t.m8 + TrackToTrackBits tr) = true :=
        hd.resolve_left hb
      simp [TryMetroReserveTrackOnTile, TryMetroReserveTrack, hb, hov]
  · rw [if_neg hd]
    rcases not_or.mp hd with ⟨hbn, hovn⟩
    have hb : HasBit (GetMetroRailReservationTrackBits t.m8) tr = false := by
      simpa using hbn
    have hov : TracksOverlap
        (GetMetroRailReservationTrackBits t.m8 + TrackToTrackBits tr) = false := by
      simpa using hovn
    simp [TryMetroReserveTrackOnTile, TryMetroReserveTrack, hb, hov]

/-- C4 (counterexample to the original claim): at word 12348 reserving
track 3 succeeds and the enlarged reservation is 12, yet the stored
reservation decodes to 60, not 12. -/
theorem c4_try_reserve_counterexample :
    (TryMetroReserveTrack 12348 3).1 = true ∧
    HasMetroTrack 12348 3 = true ∧
    GetMetroRailReservationTrackBits 12348 + TrackToTrackBits 3 = 12 ∧
    GetMetroRailReservationTrackBits (TryMetroReserveTrack 12348 3).2 ≠ 12 := by
  decide

theorem toggle_off_general {w : Nat}
    (hres : GetMetroRailReservationTrackBits w = 0)
    (h64 : GetMetroTrackBits w < 64) :
    GetMetroTrackBits (SetMetroHasSignals w false) = GetMetroTrackBits w ∧
    GetMetroRailReservationTrackBits (SetMetroHasSignals w false) = 0 := by
  simp only [SetMetroHasSignals, hres]
  have h15w1 : InnerMetroHasSignals (InnerSetMetroHasSignals w false) = false := by simp
  simp only [SetMetroTrackBits, h15w1, Bool.false_eq_true, if_false]
  have h15w3 : InnerMetroHasSignals
      (SB (InnerSetMetroHasSignals w false) 0 6 (GetMetroTrackBits w)) = false := by
    simp
  constructor
  · rw [tracks_setRes, getTracks_unsig h15w3]
    simp [Nat.mod_eq_of_lt h64]
  · rw [getRes_setRes_unsig_zero _ h15w3]

theorem toggle_on_single {w k : Nat} (hk : k < 6)
    (htr : GetMetroTrackBits w = 2 ^ k)
    (hres : GetMetroRailReservationTrackBits w = 0) :
    GetMetroTrackBits (SetMetroHasSignals w true) = 2 ^ k ∧
    GetMetroRailReservationTrackBits (SetMetroHasSignals w true) = 0 := by
  have hj0 : GB w 12 2 = 0 := by
    by_cases h15 : InnerMetroHasSignals w = true
    · by_cases h14 : InnerMetroHasDoubleTrack w = true
      · exfalso
        rw [getTracks_sig_dbl h15 h14] at htr
        interval_cases k <;> split_ifs at htr <;> omega
      · have h14f : InnerMetroHasDoubleTrack w = false := by simpa using h14
        have hb2 : HasBit w 2 = false := by
          cases c2 : HasBit w 2
          · rfl
          · exfalso
            rw [getRes_sig_single w h15 h14f, c2] at hres
            simp only [if_true, TrackToTrackBits] at hres
            have : (0 : Nat) < 2 ^ GetMetroTrack w := Nat.pos_pow_of_pos _ (by norm_num)
            omega
        have hd : metroReservationFieldDecode w = 0 := by
          rw [getRes_sig_single w h15 h14f, hb2] at hres
          simpa using hres
        have h3 := decode_eq_zero hd
        unfold GB at h3 ⊢
        omega
    · have h15f : InnerMetroHasSignals w = false := by simpa using h15
      have h3 := decode_eq_zero (by rw [← getRes_unsig w h15f]; exact hres)
      unfold GB at h3 ⊢
      omega
  simp only [SetMetroHasSignals, hres, htr]
  have h15w1 : InnerMetroHasSignals (InnerSetMetroHasSignals w true) = true := by simp
  simp only [SetMetroTrackBits, h15w1, if_true, TRACK_BIT_X, TRACK_BIT_Y,
    TRACK_BIT_UPPER, TRACK_BIT_LOWER, TRACK_BIT_LEFT, TRACK_BIT_RIGHT,
    TRACK_BIT_HORZ, TRACK_BIT_VERT]
  interval_cases k <;> norm_num <;>
    refine ⟨?_, ?_⟩ <;>
    first
    | (rw [tracks_setRes, getTracks_sig_single (by simp) (by simp)]
       simp [TRACK_X, TRACK_Y, TRACK_UPPER, TRACK_LOWER, TRACK_LEFT, TRACK_RIGHT])
    | rw [getRes_setRes_sig_single_zero _ (by simp) (by simp) (by simp [hj0])]

/-- C6: for a word whose topology is the single track 2 ^ k with empty
reservation, toggling signals on and then off preserves the topology and
the empty reservation. -/
theorem c6_mode_toggle_preserves {w k : Nat} (hk : k < 6)
    (htr : GetMetroTrackBits w = 2 ^ k)
    (hres : GetMetroRailReservationTrackBits w = 0) :
    GetMetroTrackBits (SetMetroHasSignals (SetMetroHasSignals w true) false) = 2 ^ k ∧
    GetMetroRailReservationTrackBits
      (SetMetroHasSignals (SetMetroHasSignals w true) false) = 0 := by
  obtain ⟨ht1, hr1⟩ := toggle_on_single hk htr hres
  have h64 : GetMetroTrackBits (SetMetroHasSignals w true) < 64 := by
    rw [ht1]
    have : 2 ^ k ≤ 2 ^ 5 := Nat.pow_le_pow_right (by norm_num) (by omega)
    omega
  obtain ⟨ht2, hr2⟩ := toggle_off_general hr1 h64
  rw [ht1] at ht2
  exact ⟨ht2, hr2⟩

theorem c6_mode_toggle_preserves_witness :
    GetMetroTrackBits (SetMetroHasSignals (SetMetroHasSignals 8 true) false) = 2 ^ 3 ∧
    GetMetroRailReservationTrackBits
      (SetMetroHasSignals (SetMetroHasSignals 8 true) false) = 0 :=
  c6_mode_toggle_preserves (by norm_num) (by decide) (by decide)

/-- C7: on a signaled tile, SetMetroTrackBits with a 6-bit value that is
none of the eight recognized topologies clears the signal-presence bit
and writes the value into the raw topology field, and GetMetroTrackBits
then returns it. -/
theorem c7_invalid_signaled_topology (w b : Nat) (h15 : InnerMetroHasSignals w = true)
    (hb : b < 64) (hnv : ¬ SignaledTrackBitsValue b) :
    InnerMetroHasSignals (SetMetroTrackBits w b) = false ∧
    SetMetroTrackBits w b = SB (InnerSetMetroHasSignals w false) 0 6 b ∧
    GetMetroTrackBits (SetMetroTrackBits w b) = b := by
  simp only [SignaledTrackBitsValue, not_or] at hnv
  obtain ⟨n1, n2, n3, n4, n5, n6, n7, n8⟩ := hnv
  have he : SetMetroTrackBits w b = SB (InnerSetMetroHasSignals w false) 0 6 b := by
    simp only [SetMetroTrackBits, h15, if_true]
    rw [if_neg n1, if_neg n2, if_neg n3, if_neg n4, if_neg n5, if_neg n6,
      if_neg n7, if_neg n8]
  refine ⟨?_, he, ?_⟩
  · rw [he]
    simp
  · rw [he, getTracks_unsig (by simp)]
    simp [Nat.mod_eq_of_lt hb]

theorem c7_invalid_signaled_topology_witness :
    InnerMetroHasSignals 32768 = true ∧ (3 : Nat) < 64 ∧ ¬ SignaledTrackBitsValue 3 ∧
    (InnerMetroHasSignals (SetMetroTrackBits 32768 3) = false ∧
      SetMetroTrackBits 32768 3 = SB (InnerSetMetroHasSignals 32768 false) 0 6 3 ∧
      GetMetroTrackBits (SetMetroTrackBits 32768 3) = 3) :=
  ⟨by decide, by norm_num, by decide, c7_invalid_signaled_topology 32768 3 (by decide) (by norm_num) (by decide)⟩

/-- C8: on an unsignaled tile the reservation decode reads the 3-bit
field at bits 12-14: 0 is the empty set, a value v in 1..6 is the single
track v - 1, and the sentinel 7 is TRACK_BIT_HORZ when the topology
lacks one of the two vertical tracks, else TRACK_BIT_VERT when it lacks
one of the two horizontal tracks, else both bundles. -/
theorem c8_unsignaled_decode (w : Nat) (h15 : InnerMetroHasSignals w = false) :
    GetMetroRailReservationTrackBits w =
      if GB w 12 3 = 0 then 0
      else if GB w 12 3 = 7 then
        (if ¬(HasBit (GB w 0 6) 4 = true ∧ HasBit (GB w 0 6) 5 = true) then 12
         else if ¬(HasBit (GB w 0 6) 2 = true ∧ HasBit (GB w 0 6) 3 = true) then 48
         else 60)
      else 2 ^ (GB w 12 3 - 1) := by
  rw [getRes_unsig w h15]
  simp only [metroReservationFieldDecode, metroSentinelDecode, TrackToTrackBits,
    TRACK_BIT_NONE, TRACK_RESERVATION_BOTH, TRACK_BIT_HORZ, TRACK_BIT_VERT,
    TRACK_LEFT, TRACK_RIGHT, TRACK_UPPER, TRACK_LOWER]

theorem c8_unsignaled_decode_witness :
    InnerMetroHasSignals 28672 = false ∧
    GetMetroRailReservationTrackBits 28672 =
      (if GB 28672 12 3 = 0 then 0
       else if GB 28672 12 3 = 7 then
         (if ¬(HasBit (GB 28672 0 6) 4 = true ∧ HasBit (GB 28672 0 6) 5 = true) then 12
          else if ¬(HasBit (GB 28672 0 6) 2 = true ∧ HasBit (GB 28672 0 6) 3 = true) then 48
          else 60)
       else 2 ^ (GB 28672 12 3 - 1)) :=
  ⟨by decide, c8_unsignaled_decode 28672 (by decide)⟩

/-- C5 (code bug): at word 49184 (signaled double track with the lower
side reserved) unreserving present track 3 leaves the word and its
decoded reservation unchanged: SetMetroTrackReservation sets bit 5 from
the requested side but never clears it. -/
theorem c5_unreserve_bug :
    HasMetroTrack 49184 3 = true ∧
    HasBit (GetMetroRailReservationTrackBits 49184) 3 = true ∧
    UnreserveMetroTrack 49184 3 = 49184 ∧
    HasBit (GetMetroRailReservationTrackBits (UnreserveMetroTrack 49184 3)) 3 = true := by
  decide

/-- C9 (code bug): on an MP_INDUSTRY tile the owner setter stores bits
2 and 3 of the adjusted owner value from bits 3 and 4 while the getter
reads them back at weights 4 and 8, so storing company owner 3 reads
back OWNER_NONE instead. -/
theorem c9_owner_roundtrip_bug :
    (3 : Nat) < OWNER_TOWN ∧
    GetMetroTileOwner (SetMetroTileOwner industryTileZero 3) = OWNER_NONE ∧
    OWNER_NONE ≠ (3 : Nat) := by
  decide

/-- C10: UpdateMetroTileOwner leaves the tile unchanged when the decoded
topology is empty, and otherwise equals SetMetroTileOwner. -/
theorem c10_update_owner_frame (t : Tile) (o : Nat) :
    (GetMetroTrackBits t.m8 = 0 → UpdateMetroTileOwner t o = t) ∧
    (GetMetroTrackBits t.m8 ≠ 0 → UpdateMetroTileOwner t o = SetMetroTileOwner t o) := by
  constructor <;> intro h <;> simp [UpdateMetroTileOwner, h]

theorem c10_update_owner_frame_witness :
    UpdateMetroTileOwner industryTileZero 5 = industryTileZero ∧
    UpdateMetroTileOwner industryTileX 5 = SetMetroTileOwner industryTileX 5 :=
  ⟨(c10_update_owner_frame industryTileZero 5).1 (by decide),
   (c10_update_owner_frame industryTileX 5).2 (by decide)⟩

end Metro
